import Mathlib

/-!
Verification of the column-reconciliation and template-population engine of
the RubickAI template-generation app (`src/app.py`), as a shallow embedding.

Modelling conventions:
* A spreadsheet cell is `Option String`: `none` is a missing value (pandas
  `NaN` / openpyxl empty cell), `some s` is the cell's content rendered as a
  string (`str(...)` conversion of non-string values is abstracted away).
* String helpers are implemented over `String.data` (`List Char`) so that all
  definitions evaluate by kernel reduction on concrete inputs.
* Python `f"{n}"` decimal rendering of a natural number is embedded as
  `natRepr`, the standard base-10 numeral algorithm.
-/

/-- Characters of a string helper: case-insensitive lowering, as in Python
`str.lower()` (restricted to the ASCII range exercised by the program). -/
def strLower (s : String) : String := (s.data.map Char.toLower).asString

/-- Substring test: does `sub` occur inside `s`?  Embeds Python's `sub in s`. -/
def strContainsSub (s sub : String) : Bool :=
  s.data.tails.any (fun t => sub.data.isPrefixOf t)

/-- Suffix test over character lists; embeds matching of an anchored regex
`...$` / `str.endswith`.  (Python's `$` would also accept one trailing
newline; that corner is abstracted to a plain suffix test.) -/
def strEndsWith (s suffx : String) : Bool :=
  suffx.data.isSuffixOf s.data

/-- Trim helper over character lists; embeds Python `str.strip()`. -/
def strTrim (s : String) : String :=
  (((s.data.dropWhile Char.isWhitespace).reverse.dropWhile Char.isWhitespace).reverse).asString

/-- Embeds `norm` (src/app.py line 132): drop every whitespace character and
lowercase, producing the comparison key.  `pd.isna` inputs are handled by
`normCell`; on proper strings `str(s)` is the identity. -/
def norm (s : String) : String :=
  ((s.data.filter (fun c => !c.isWhitespace)).map Char.toLower).asString

/-- Embeds `norm` applied to a possibly-missing cell value. -/
def normCell (s : Option String) : String :=
  match s with
  | none => ""
  | some str => norm str

/-- ASCII letter-or-digit test, the character class `[0-9A-Za-z]` of
`clean_header`. -/
def isAsciiAlnum (c : Char) : Bool :=
  ('0' ≤ c && c ≤ '9') || ('A' ≤ c && c ≤ 'Z') || ('a' ≤ c && c ≤ 'z')

/-- Splits a character list into maximal runs of non-space characters. -/
def wordsOf : List Char → List Char → List (List Char)
  | acc, [] => if acc.isEmpty then [] else [acc.reverse]
  | acc, c :: rest =>
    if c = ' ' then
      if acc.isEmpty then wordsOf [] rest else acc.reverse :: wordsOf [] rest
    else wordsOf (c :: acc) rest

/-- Embeds `clean_header` (src/app.py line 137): every character outside
`[0-9A-Za-z ]` becomes a space, whitespace runs collapse to one space, and
the result is trimmed.  Missing headers are handled at call sites via
`Option.getD`-style matching. -/
def clean_header (s : String) : String :=
  let replaced := s.data.map (fun c => if isAsciiAlnum c then c else ' ')
  String.intercalate " " ((wordsOf [] replaced).map List.asString)

/-- Embeds `clean_header` on a possibly-missing cell (`pd.isna` branch). -/
def clean_headerCell (s : Option String) : String :=
  match s with
  | none => ""
  | some str => clean_header str

/-! ### Decimal rendering of naturals (Python `f"{n}"`) -/

/-- Little-endian base-10 digits with explicit fuel (structural recursion so
that concrete evaluation reduces in the kernel). -/
def natDigitsRev : Nat → Nat → List Nat
  | 0, _ => []
  | fuel + 1, n => if n = 0 then [] else n % 10 :: natDigitsRev fuel (n / 10)

/-- A decimal digit character. -/
def decDigit (d : Nat) : Char := Char.ofNat (48 + d)

/-- Decimal numeral of a natural number, as produced by Python string
formatting of an `int`. -/
def natRepr (n : Nat) : String :=
  if n = 0 then "0" else ((natDigitsRev n n).reverse.map decDigit).asString

/-- Value of a little-endian digit list: left inverse of `natDigitsRev`. -/
def ofDigitsRev : List Nat → Nat
  | [] => 0
  | d :: l => d + 10 * ofDigitsRev l

theorem ofDigitsRev_natDigitsRev : ∀ fuel n, n ≤ fuel →
    ofDigitsRev (natDigitsRev fuel n) = n := by
  intro fuel
  induction fuel with
  | zero => intro n hn; interval_cases n; rfl
  | succ fuel ih =>
    intro n hn
    by_cases h0 : n = 0
    · subst h0; simp [natDigitsRev, ofDigitsRev]
    · have hdiv : n / 10 ≤ fuel := by
        have : n / 10 < n := Nat.div_lt_self (Nat.pos_of_ne_zero h0) (by omega)
        omega
      simp only [natDigitsRev, if_neg h0, ofDigitsRev, ih _ hdiv]
      omega

theorem natDigitsRev_lt_ten : ∀ fuel n d, d ∈ natDigitsRev fuel n → d < 10 := by
  intro fuel
  induction fuel with
  | zero => intro n d hd; simp [natDigitsRev] at hd
  | succ fuel ih =>
    intro n d hd
    by_cases h0 : n = 0
    · subst h0; simp [natDigitsRev] at hd
    · simp only [natDigitsRev, if_neg h0, List.mem_cons] at hd
      rcases hd with h | h
      · subst h; exact Nat.mod_lt _ (by omega)
      · exact ih _ _ h

theorem decDigit_inj : ∀ d < 10, ∀ e < 10, decDigit d = decDigit e → d = e := by
  decide

theorem decDigit_ne_underscore : ∀ d < 10, decDigit d ≠ '_' := by decide

theorem mapDecDigit_inj {l1 l2 : List Nat} (h1 : ∀ d ∈ l1, d < 10)
    (h2 : ∀ d ∈ l2, d < 10) (h : l1.map decDigit = l2.map decDigit) :
    l1 = l2 := by
  induction l1 generalizing l2 with
  | nil => cases l2 with
    | nil => rfl
    | cons b bs => simp at h
  | cons a as ih =>
    cases l2 with
    | nil => simp at h
    | cons b bs =>
      simp only [List.map_cons, List.cons.injEq] at h
      have ha : a = b := decDigit_inj a (h1 a (by simp)) b (h2 b (by simp)) h.1
      have hrest : as = bs :=
        ih (fun d hd => h1 d (by simp [hd])) (fun d hd => h2 d (by simp [hd])) h.2
      rw [ha, hrest]

theorem string_ext {s t : String} (h : s.data = t.data) : s = t := by
  cases s; cases t; exact congrArg String.mk h

theorem asString_data (l : List Char) : l.asString.data = l := rfl

theorem reprDigits_inj {m n : Nat}
    (h : (natRepr m).data = (natRepr n).data) :
    (if m = 0 then [0] else (natDigitsRev m m).reverse) =
    (if n = 0 then [0] else (natDigitsRev n n).reverse) := by
  have hm : (natRepr m).data = (if m = 0 then [0] else (natDigitsRev m m).reverse).map decDigit := by
    by_cases h0 : m = 0
    · subst h0; rfl
    · simp only [natRepr, if_neg h0, asString_data]
  have hn : (natRepr n).data = (if n = 0 then [0] else (natDigitsRev n n).reverse).map decDigit := by
    by_cases h0 : n = 0
    · subst h0; rfl
    · simp only [natRepr, if_neg h0, asString_data]
  refine mapDecDigit_inj ?_ ?_ (by rw [← hm, ← hn, h])
  · intro d hd
    by_cases h0 : m = 0
    · simp [h0] at hd; omega
    · rw [if_neg h0] at hd
      exact natDigitsRev_lt_ten m m d (List.mem_reverse.mp hd)
  · intro d hd
    by_cases h0 : n = 0
    · simp [h0] at hd; omega
    · rw [if_neg h0] at hd
      exact natDigitsRev_lt_ten n n d (List.mem_reverse.mp hd)

theorem natRepr_inj {m n : Nat} (h : natRepr m = natRepr n) : m = n := by
  have hd := reprDigits_inj (congrArg String.data h)
  have hval : ∀ k : Nat, ofDigitsRev ((if k = 0 then [0] else (natDigitsRev k k).reverse).reverse) = k := by
    intro k
    by_cases h0 : k = 0
    · subst h0; rfl
    · rw [if_neg h0, List.reverse_reverse]
      exact ofDigitsRev_natDigitsRev k k le_rfl
  have := congrArg (fun l => ofDigitsRev l.reverse) hd
  simpa only [hval] using this
/-! ### Column de-duplication (`dedupe_columns`, src/app.py lines 154-165) -/

/-- The label a raw header cell contributes: missing cells (`pd.isna`) become
the placeholder `"Unnamed"`, anything else is its string form. -/
def labelOf (c : Option String) : String :=
  match c with
  | none => "Unnamed"
  | some s => s

/-- Lookup in the `seen` dictionary (embedded as an association list). -/
def lookupCount : List (String × Nat) → String → Option Nat
  | [], _ => none
  | (k, v) :: rest, s => if k = s then some v else lookupCount rest s

/-- Update of the `seen` dictionary. -/
def setCount : List (String × Nat) → String → Nat → List (String × Nat)
  | [], s, n => [(s, n)]
  | (k, v) :: rest, s, n => if k = s then (s, n) :: rest else (k, v) :: setCount rest s n

/-- Loop body of `dedupe_columns`: on a repeat of an already-seen label the
counter is bumped and the suffixed name `f"{col}_{seen[col]}"` is emitted. -/
def dedupeGo : List (String × Nat) → List (Option String) → List String
  | _, [] => []
  | seen, c :: rest =>
    let s := labelOf c
    match lookupCount seen s with
    | some n => (s ++ "_" ++ natRepr (n + 1)) :: dedupeGo (setCount seen s (n + 1)) rest
    | none => s :: dedupeGo (setCount seen s 0) rest

/-- Embeds `dedupe_columns` (src/app.py lines 154-165). -/
def dedupe_columns (cols : List (Option String)) : List String :=
  dedupeGo [] cols

/-- Tagged variant of the dedupe loop: records, for each emitted entry, its
base label and occurrence counter instead of the rendered string. -/
def dedupeTagGo : List (String × Nat) → List (Option String) → List (String × Nat)
  | _, [] => []
  | seen, c :: rest =>
    let s := labelOf c
    match lookupCount seen s with
    | some n => (s, n + 1) :: dedupeTagGo (setCount seen s (n + 1)) rest
    | none => (s, 0) :: dedupeTagGo (setCount seen s 0) rest

/-- Rendering of a tag: counter `0` is the bare label, counter `k + 1` is the
label suffixed with an underscore and the decimal counter. -/
def encodeTag : String × Nat → String
  | (s, 0) => s
  | (s, k + 1) => s ++ "_" ++ natRepr (k + 1)

theorem dedupeGo_cons_some {seen : List (String × Nat)} {c : Option String}
    {rest : List (Option String)} {m : Nat}
    (hl : lookupCount seen (labelOf c) = some m) :
    dedupeGo seen (c :: rest) =
      (labelOf c ++ "_" ++ natRepr (m + 1)) ::
        dedupeGo (setCount seen (labelOf c) (m + 1)) rest := by
  simp only [dedupeGo, hl]

theorem dedupeGo_cons_none {seen : List (String × Nat)} {c : Option String}
    {rest : List (Option String)}
    (hl : lookupCount seen (labelOf c) = none) :
    dedupeGo seen (c :: rest) =
      labelOf c :: dedupeGo (setCount seen (labelOf c) 0) rest := by
  simp only [dedupeGo, hl]

theorem dedupeTagGo_cons_some {seen : List (String × Nat)} {c : Option String}
    {rest : List (Option String)} {m : Nat}
    (hl : lookupCount seen (labelOf c) = some m) :
    dedupeTagGo seen (c :: rest) =
      (labelOf c, m + 1) :: dedupeTagGo (setCount seen (labelOf c) (m + 1)) rest := by
  simp only [dedupeTagGo, hl]

theorem dedupeTagGo_cons_none {seen : List (String × Nat)} {c : Option String}
    {rest : List (Option String)}
    (hl : lookupCount seen (labelOf c) = none) :
    dedupeTagGo seen (c :: rest) =
      (labelOf c, 0) :: dedupeTagGo (setCount seen (labelOf c) 0) rest := by
  simp only [dedupeTagGo, hl]

theorem dedupeGo_eq_map_encode : ∀ (cols : List (Option String)) (seen : List (String × Nat)),
    dedupeGo seen cols = (dedupeTagGo seen cols).map encodeTag := by
  intro cols
  induction cols with
  | nil => intro seen; rfl
  | cons c rest ih =>
    intro seen
    cases hl : lookupCount seen (labelOf c) with
    | some m =>
      rw [dedupeGo_cons_some hl, dedupeTagGo_cons_some hl, List.map_cons, ih]
      rfl
    | none =>
      rw [dedupeGo_cons_none hl, dedupeTagGo_cons_none hl, List.map_cons, ih]
      rfl

theorem lookupCount_setCount (seen : List (String × Nat)) (s t : String) (v : Nat) :
    lookupCount (setCount seen s v) t = if t = s then some v else lookupCount seen t := by
  induction seen with
  | nil =>
    show (if s = t then some v else none) = if t = s then some v else none
    by_cases h : s = t
    · subst h; simp
    · rw [if_neg h, if_neg (fun hh : t = s => h hh.symm)]
  | cons p rest ih =>
    obtain ⟨k, w⟩ := p
    by_cases hk : k = s
    · simp only [setCount, lookupCount, if_pos hk, hk]
      by_cases hst : s = t
      · subst hst; simp
      · rw [if_neg hst, if_neg (fun hh : t = s => hst hh.symm), if_neg hst]
    · simp only [setCount, lookupCount, if_neg hk, ih]
      by_cases hkt : k = t
      · have hts : ¬ t = s := fun hh => hk (hkt.trans hh)
        rw [if_pos hkt, if_neg hts, if_pos hkt]
      · simp only [if_neg hkt]

theorem tag_count_gt : ∀ (cols : List (Option String)) (seen : List (String × Nat))
    (s : String) (k : Nat), (s, k) ∈ dedupeTagGo seen cols →
    ∀ n, lookupCount seen s = some n → n < k := by
  intro cols
  induction cols with
  | nil => intro seen s k hmem; simp [dedupeTagGo] at hmem
  | cons c rest ih =>
    intro seen s k hmem n hn
    cases hl : lookupCount seen (labelOf c) with
    | some m =>
      rw [dedupeTagGo_cons_some hl] at hmem
      simp only [List.mem_cons, Prod.mk.injEq] at hmem
      rcases hmem with ⟨hs, hk⟩ | htail
      · subst hs
        rw [hl] at hn
        injection hn with hnm
        omega
      · by_cases hst : s = labelOf c
        · subst hst
          have hgt := ih (setCount seen (labelOf c) (m + 1)) (labelOf c) k htail (m + 1)
            (by rw [lookupCount_setCount]; simp)
          rw [hl] at hn
          injection hn with hnm
          omega
        · exact ih _ s k htail n
            (by rw [lookupCount_setCount, if_neg hst]; exact hn)
    | none =>
      rw [dedupeTagGo_cons_none hl] at hmem
      simp only [List.mem_cons, Prod.mk.injEq] at hmem
      rcases hmem with ⟨hs, hk⟩ | htail
      · subst hs
        rw [hl] at hn
        simp at hn
      · by_cases hst : s = labelOf c
        · subst hst
          rw [hl] at hn
          simp at hn
        · exact ih _ s k htail n
            (by rw [lookupCount_setCount, if_neg hst]; exact hn)

theorem tag_fst_mem : ∀ (cols : List (Option String)) (seen : List (String × Nat))
    (s : String) (k : Nat), (s, k) ∈ dedupeTagGo seen cols → s ∈ cols.map labelOf := by
  intro cols
  induction cols with
  | nil => intro seen s k h; simp [dedupeTagGo] at h
  | cons c rest ih =>
    intro seen s k h
    cases hl : lookupCount seen (labelOf c) with
    | some m =>
      rw [dedupeTagGo_cons_some hl] at h
      simp only [List.mem_cons, Prod.mk.injEq] at h
      rcases h with ⟨hs, _⟩ | htail
      · simp [hs]
      · simp [ih _ _ _ htail]
    | none =>
      rw [dedupeTagGo_cons_none hl] at h
      simp only [List.mem_cons, Prod.mk.injEq] at h
      rcases h with ⟨hs, _⟩ | htail
      · simp [hs]
      · simp [ih _ _ _ htail]

theorem dedupeTagGo_nodup : ∀ (cols : List (Option String)) (seen : List (String × Nat)),
    (dedupeTagGo seen cols).Nodup := by
  intro cols
  induction cols with
  | nil => intro seen; simp [dedupeTagGo]
  | cons c rest ih =>
    intro seen
    cases hl : lookupCount seen (labelOf c) with
    | some m =>
      rw [dedupeTagGo_cons_some hl]
      refine List.nodup_cons.mpr ⟨?_, ih _⟩
      intro hmem
      have := tag_count_gt rest _ _ _ hmem (m + 1)
        (by rw [lookupCount_setCount]; simp)
      omega
    | none =>
      rw [dedupeTagGo_cons_none hl]
      refine List.nodup_cons.mpr ⟨?_, ih _⟩
      intro hmem
      have := tag_count_gt rest _ _ _ hmem 0
        (by rw [lookupCount_setCount]; simp)
      omega

theorem append_cons_inj {c : Char} : ∀ (l1 l2 r1 r2 : List Char), c ∉ l1 → c ∉ l2 →
    l1 ++ c :: r1 = l2 ++ c :: r2 → l1 = l2 ∧ r1 = r2 := by
  intro l1
  induction l1 with
  | nil =>
    intro l2 r1 r2 _ hc2 h
    cases l2 with
    | nil => simpa using h
    | cons b bs =>
      simp only [List.nil_append, List.cons_append, List.cons.injEq] at h
      exact absurd (h.1 ▸ List.mem_cons_self b bs) (by simp_all)
  | cons a as ih =>
    intro l2 r1 r2 hc1 hc2 h
    cases l2 with
    | nil =>
      simp only [List.cons_append, List.nil_append, List.cons.injEq] at h
      exact absurd (h.1 ▸ List.mem_cons_self a as) (by simp_all)
    | cons b bs =>
      simp only [List.cons_append, List.cons.injEq] at h
      obtain ⟨hab, hrest⟩ := h
      have := ih bs r1 r2 (fun hm => hc1 (List.mem_cons_of_mem a hm))
        (fun hm => hc2 (List.mem_cons_of_mem b hm)) hrest
      exact ⟨by rw [hab, this.1], this.2⟩

theorem encodeTag_data_succ (s : String) (k : Nat) :
    (encodeTag (s, k + 1)).data = s.data ++ '_' :: (natRepr (k + 1)).data := by
  show (s ++ "_" ++ natRepr (k + 1)).data = _
  rw [String.data_append, String.data_append]
  rw [show ("_" : String).data = ['_'] from rfl, List.append_assoc]
  rfl

theorem encodeTag_inj {s1 s2 : String} {k1 k2 : Nat}
    (h1 : '_' ∉ s1.data) (h2 : '_' ∉ s2.data)
    (h : encodeTag (s1, k1) = encodeTag (s2, k2)) : s1 = s2 ∧ k1 = k2 := by
  cases k1 with
  | zero =>
    cases k2 with
    | zero => exact ⟨h, rfl⟩
    | succ k =>
      exfalso
      have hdata := congrArg String.data h
      rw [show encodeTag (s1, 0) = s1 from rfl, encodeTag_data_succ s2 k] at hdata
      exact h1 (hdata ▸ List.mem_append_right s2.data (List.mem_cons_self _ _))
  | succ j =>
    cases k2 with
    | zero =>
      exfalso
      have hdata := congrArg String.data h
      rw [show encodeTag (s2, 0) = s2 from rfl, encodeTag_data_succ s1 j] at hdata
      exact h2 (hdata.symm ▸ List.mem_append_right s1.data (List.mem_cons_self _ _))
    | succ k =>
      have hdata := congrArg String.data h
      rw [encodeTag_data_succ s1 j, encodeTag_data_succ s2 k] at hdata
      obtain ⟨hs, hr⟩ := append_cons_inj s1.data s2.data _ _ h1 h2 hdata
      refine ⟨string_ext hs, ?_⟩
      have hrepr : natRepr (j + 1) = natRepr (k + 1) := string_ext hr
      have := natRepr_inj hrepr
      omega

theorem dedupeGo_length : ∀ (cols : List (Option String)) (seen : List (String × Nat)),
    (dedupeGo seen cols).length = cols.length := by
  intro cols
  induction cols with
  | nil => intro seen; rfl
  | cons c rest ih =>
    intro seen
    cases hl : lookupCount seen (labelOf c) with
    | some m => rw [dedupeGo_cons_some hl]; simp [ih]
    | none => rw [dedupeGo_cons_none hl]; simp [ih]

theorem dedupeTagGo_map_fst : ∀ (cols : List (Option String)) (seen : List (String × Nat)),
    (dedupeTagGo seen cols).map Prod.fst = cols.map labelOf := by
  intro cols
  induction cols with
  | nil => intro seen; rfl
  | cons c rest ih =>
    intro seen
    cases hl : lookupCount seen (labelOf c) with
    | some m => rw [dedupeTagGo_cons_some hl]; simp [ih]
    | none => rw [dedupeTagGo_cons_none hl]; simp [ih]

theorem dedupe_columns_nodup (cols : List (Option String))
    (h : ∀ c ∈ cols, '_' ∉ (labelOf c).data) : (dedupe_columns cols).Nodup := by
  unfold dedupe_columns
  rw [dedupeGo_eq_map_encode]
  refine List.Nodup.map_on ?_ (dedupeTagGo_nodup cols [])
  intro x hx y hy hxy
  obtain ⟨s1, k1⟩ := x
  obtain ⟨s2, k2⟩ := y
  have hm1 : s1 ∈ cols.map labelOf := tag_fst_mem cols [] s1 k1 hx
  have hm2 : s2 ∈ cols.map labelOf := tag_fst_mem cols [] s2 k2 hy
  obtain ⟨c1, hc1, rfl⟩ := List.mem_map.mp hm1
  obtain ⟨c2, hc2, rfl⟩ := List.mem_map.mp hm2
  obtain ⟨hfst, hsnd⟩ := encodeTag_inj (h c1 hc1) (h c2 hc2) hxy
  rw [hfst, hsnd]

theorem dedupe_columns_get? (cols : List (Option String)) (i : Nat) (c : Option String)
    (hc : cols.get? i = some c) :
    ∃ k, (dedupe_columns cols).get? i = some (encodeTag (labelOf c, k)) := by
  unfold dedupe_columns
  rw [dedupeGo_eq_map_encode]
  have hfst := dedupeTagGo_map_fst cols []
  have hget := congrArg (fun l => l.get? i) hfst
  simp only [List.get?_map, hc] at hget
  cases htg : (dedupeTagGo [] cols).get? i with
  | none => rw [htg] at hget; simp at hget
  | some p =>
    obtain ⟨s, k⟩ := p
    rw [htg] at hget
    simp only [Option.map_some'] at hget
    refine ⟨k, ?_⟩
    rw [List.get?_map, htg]
    have hs : s = labelOf c := by injection hget
    rw [Option.map_some', hs]

/-- C1, corrected claim: `dedupe_columns` preserves length and order (the
`i`-th output is the `i`-th input's label, blanks replaced by `"Unnamed"`,
possibly `_k`-suffixed), repeats get `_1`, `_2`, ..., and the output entries
are pairwise distinct provided no input label contains an underscore; the
spec's own example evaluates as stated.  (Unconditional distinctness is
refuted by `C1_dedupe_counterexample`.) -/
theorem C1_dedupe_amended (cols : List (Option String))
    (h : ∀ c ∈ cols, '_' ∉ (labelOf c).data) :
    (dedupe_columns cols).length = cols.length ∧
    (dedupe_columns cols).Nodup ∧
    (∀ (i : Nat) (c : Option String), cols.get? i = some c →
      ∃ k, (dedupe_columns cols).get? i = some (encodeTag (labelOf c, k))) ∧
    dedupe_columns [some "Size", none, some "Size"] = ["Size", "Unnamed", "Size_1"] ∧
    dedupe_columns [some "a", some "a", some "a"] = ["a", "a_1", "a_2"] := by
  refine ⟨dedupeGo_length cols [], dedupe_columns_nodup cols h,
    fun i c hc => dedupe_columns_get? cols i c hc, by decide, by decide⟩

/-- C1 counterexample: the claim asserts pairwise-distinct output for every
input, but on `["a", "a_1", "a"]` the code produces `["a", "a_1", "a_1"]`,
which contains a duplicate. -/
theorem C1_dedupe_counterexample :
    dedupe_columns [some "a", some "a_1", some "a"] = ["a", "a_1", "a_1"] ∧
    ¬ (dedupe_columns [some "a", some "a_1", some "a"]).Nodup := by
  decide

/-- C1 witness: the amended theorem applied to the spec's own example input. -/
theorem C1_dedupe_amended_witness :
    (∀ c ∈ [some "Size", none, some "Size"], '_' ∉ (labelOf c).data) ∧
    (dedupe_columns [some "Size", none, some "Size"]).Nodup ∧
    dedupe_columns [some "Size", none, some "Size"] = ["Size", "Unnamed", "Size_1"] := by
  refine ⟨by decide, ?_, ?_⟩
  · exact (C1_dedupe_amended [some "Size", none, some "Size"] (by decide)).2.1
  · exact (C1_dedupe_amended [some "Size", none, some "Size"] (by decide)).2.2.2.1

/-! ### Source tables

A `Table` embeds the pandas `src_df`: an ordered list of named columns, each
an ordered list of cell values, together with the row count (`len(src_df)`).
-/

structure Table where
  cols : List (String × List (Option String))
  nrows : Nat

/-- Well-formedness: every column holds one value per row (a pandas
`DataFrame` is rectangular by construction). -/
def Table.WF (t : Table) : Prop := ∀ p ∈ t.cols, p.2.length = t.nrows

/-- The ordered column names, `src_df.columns`. -/
def Table.colNames (t : Table) : List String := t.cols.map Prod.fst

/-- Column lookup by name, `src_df[name]` (first match; pandas column names
are unique after `dedupe_columns` in every executed path). -/
def Table.getColByName (t : Table) (name : String) : Option (List (Option String)) :=
  (t.cols.find? (fun p => p.1 == name)).map Prod.snd

/-! ### Auto-mode image-column heuristic (`is_image_column`, src/app.py lines 145-152) -/

/-- The keyword set `IMAGE_KEYWORDS` (src/app.py line 146). -/
def IMAGE_KEYWORDS : List String :=
  ["image", "img", "picture", "photo", "thumbnail", "thumb", "hero", "front", "back", "url"]

/-- The alternatives of the regex `(?i)\.(jpe?g|png|gif|bmp|webp|tiff?)$`
(src/app.py line 145), spelled out. -/
def IMAGE_EXTENSIONS : List String :=
  [".jpg", ".jpeg", ".png", ".gif", ".bmp", ".webp", ".tif", ".tiff"]

/-- Case-insensitive image-extension suffix match of one value against the
anchored regex. -/
def hasImageExt (s : String) : Bool :=
  IMAGE_EXTENSIONS.any (fun e => strEndsWith (strLower s) e)

/-- The sampled values: `series.dropna().astype(str).head(20)`. -/
def imageSample (series : List (Option String)) : List String :=
  (series.filterMap id).take 20

/-- Embeds `is_image_column` (src/app.py lines 148-152).  pandas computes
`ratio = mean(matches)` as a float and tests `ratio >= 0.30`; with a sample
of at most 20 values the float test `count/len >= 0.30` coincides with the
exact test `10 * count >= 3 * len` (no fraction with denominator at most 20
lies between `0.3` and its nearest double), so the comparison is embedded in
exact integer arithmetic. -/
def is_image_column (colHeaderNorm : String) (series : List (Option String)) : Bool :=
  let headerHit := IMAGE_KEYWORDS.any (fun k => strContainsSub colHeaderNorm k)
  let sample := imageSample series
  let ratioHit := !sample.isEmpty &&
    decide (3 * sample.length ≤ 10 * (sample.filter hasImageExt).length)
  headerHit || ratioHit

/-- The sampled match fraction as an exact rational, following the spec's
wording (`mean` of the suffix-match indicators; `0` on an empty sample). -/
def imageExtFraction (series : List (Option String)) : ℚ :=
  let sample := imageSample series
  if sample.isEmpty then 0
  else ((sample.filter hasImageExt).length : ℚ) / (sample.length : ℚ)

/-! ### Identifier resolution (`find_column_by_name_like`, src/app.py lines 178-192) -/

/-- Embeds `find_column_by_name_like`: three priority tiers — exact equality
after trimming, equality of normalized keys, normalized-substring
containment — each scanned left to right; `None`/empty names resolve to
nothing. -/
def find_column_by_name_like (cols : List String) (name : String) : Option String :=
  if name = "" then none
  else
    match cols.find? (fun c => strTrim c == strTrim name) with
    | some c => some c
    | none =>
      match cols.find? (fun c => norm c == norm (strTrim name)) with
      | some c => some c
      | none => cols.find? (fun c => strContainsSub (norm c) (norm (strTrim name)))

/-! ### Variant/option derivation (src/app.py lines 276-289) -/

/-- Header test for a size-candidate column. -/
def sizePred (c : String) : Bool := strContainsSub (norm c) "size"

/-- Header test for a color-candidate column. -/
def colorPred (c : String) : Bool :=
  strContainsSub (norm c) "color" || strContainsSub (norm c) "colour"

/-- `size_cols` (src/app.py line 277). -/
def size_cols (t : Table) : List String := t.colNames.filter sizePred

/-- `color_cols` (src/app.py line 276). -/
def color_cols (t : Table) : List String := t.colNames.filter colorPred

/-- One cell of `fillna('').astype(str).str.strip()`. -/
def trimCell (v : Option String) : String :=
  match v with
  | none => ""
  | some s => strTrim s

/-- The trimmed string series of a named column. -/
def seriesOf (t : Table) (name : String) : List String :=
  ((t.getColByName name).getD []).map trimCell

/-- `option1_data` (src/app.py lines 279-286): the first size-candidate's
trimmed values, else all-blank. -/
def option1_data (t : Table) : List String :=
  match size_cols t with
  | [] => List.replicate t.nrows ""
  | c :: _ => seriesOf t c

/-- `option2_data` (src/app.py lines 279-286): the first color-candidate's
trimmed values when it differs from the chosen size column (or when no size
column exists), else all-blank. -/
def option2_data (t : Table) : List String :=
  match size_cols t, color_cols t with
  | _ :: _, [] => List.replicate t.nrows ""
  | s :: _, c :: _ => if c = s then List.replicate t.nrows "" else seriesOf t c
  | [], c :: _ => seriesOf t c
  | [], [] => List.replicate t.nrows ""

/-! ### Distinct option values (src/app.py lines 288-289) -/

/-- pandas `Series.unique()`: first occurrence of each value, in input
order. -/
def firstOccur : List String → List String → List String
  | _, [] => []
  | seen, x :: rest =>
    if x ∈ seen then firstOccur seen rest else x :: firstOccur (x :: seen) rest

/-- `unique().tolist()` on a series. -/
def pdUnique (l : List String) : List String := firstOccur [] l

/-- `series.replace("", pd.NA).dropna().unique().tolist()`: drop blanks, then
collect distinct values in order of first appearance. -/
def distinctNonBlank (l : List String) : List String :=
  pdUnique (l.filter (fun v => !(v == "")))

/-- `unique_opt1` (src/app.py line 288). -/
def unique_opt1 (t : Table) : List String := distinctNonBlank (option1_data t)

/-- `unique_opt2` (src/app.py line 289). -/
def unique_opt2 (t : Table) : List String := distinctNonBlank (option2_data t)

/-- Collection in order of first appearance, written directly from the
spec's wording: keep each element's first occurrence, delete its later
repeats. -/
def specFirstOccurrence : List String → List String
  | [] => []
  | x :: rest => x :: specFirstOccurrence (rest.filter (fun y => !(y == x)))
termination_by l => l.length
decreasing_by
  simp only [List.length_cons]
  exact Nat.lt_succ_of_le (List.length_filter_le _ _)

theorem ratio_equiv (series : List (Option String)) :
    ((!(imageSample series).isEmpty) &&
      decide (3 * (imageSample series).length ≤
        10 * ((imageSample series).filter hasImageExt).length)) = true ↔
    (3 : ℚ)/10 ≤ imageExtFraction series := by
  unfold imageExtFraction
  cases hemp : (imageSample series).isEmpty with
  | true =>
    rw [if_pos hemp]
    simp only [hemp, Bool.not_true, Bool.false_and]
    constructor
    · intro h; cases h
    · intro h; norm_num at h
  | false =>
    rw [if_neg (by rw [hemp]; exact Bool.false_ne_true)]
    simp only [hemp, Bool.not_false, Bool.true_and, decide_eq_true_eq]
    have hne : imageSample series ≠ [] := by
      intro hnil; rw [hnil] at hemp; cases hemp
    have hLpos : 0 < (imageSample series).length := List.length_pos.mpr hne
    have hLq : (0 : ℚ) < ((imageSample series).length : ℚ) := by exact_mod_cast hLpos
    rw [div_le_div_iff (by norm_num) hLq]
    constructor
    · intro h
      have : ((3 : ℚ)) * ((imageSample series).length : ℚ) ≤
          (((imageSample series).filter hasImageExt).length : ℚ) * 10 := by
        exact_mod_cast by omega
      linarith
    · intro h
      have : (3 * (imageSample series).length : ℚ) ≤
          (10 * ((imageSample series).filter hasImageExt).length : ℚ) := by
        linarith
      exact_mod_cast this

/-- C3: In Auto mode a column is tagged `imageurlarray` iff its normalized
header contains one of the image keywords or the fraction of the first
up-to-20 non-missing sampled values ending in an image extension is at least
`0.30`; in particular a 20-value sample with exactly 6 matches (ratio 0.30)
qualifies and one with 5 matches (the largest realizable ratio below 0.30)
does not. -/
theorem C3_image_classification :
    (∀ (hd : String) (series : List (Option String)),
      is_image_column hd series = true ↔
        ((∃ k ∈ IMAGE_KEYWORDS, strContainsSub hd k = true) ∨
         (3 : ℚ)/10 ≤ imageExtFraction series)) ∧
    is_image_column (norm "Notes")
      (List.replicate 6 (some "a.jpg") ++ List.replicate 14 (some "plain")) = true ∧
    is_image_column (norm "Notes")
      (List.replicate 5 (some "a.jpg") ++ List.replicate 15 (some "plain")) = false := by
  refine ⟨?_, by decide, by decide⟩
  intro hd series
  unfold is_image_column
  rw [Bool.or_eq_true]
  constructor
  · intro h
    rcases h with h | h
    · left
      obtain ⟨k, hk, hpk⟩ := List.any_eq_true.mp h
      exact ⟨k, hk, hpk⟩
    · right
      exact (ratio_equiv series).mp h
  · intro h
    rcases h with ⟨k, hk, hpk⟩ | h
    · exact Or.inl (List.any_eq_true.mpr ⟨k, hk, hpk⟩)
    · exact Or.inr ((ratio_equiv series).mpr h)

/-- C4: identifier-role resolution searches columns by three strict priority
tiers — exact equality after trimming, normalized equality, normalized
substring containment — taking the leftmost match of the highest nonempty
tier, and yields nothing when no tier matches. -/
theorem C4_identifier_resolution (cols : List String) (name : String) (hname : name ≠ "") :
    (∀ c, cols.find? (fun x => strTrim x == strTrim name) = some c →
        find_column_by_name_like cols name = some c) ∧
    (cols.find? (fun x => strTrim x == strTrim name) = none →
      ∀ c, cols.find? (fun x => norm x == norm (strTrim name)) = some c →
        find_column_by_name_like cols name = some c) ∧
    (cols.find? (fun x => strTrim x == strTrim name) = none →
      cols.find? (fun x => norm x == norm (strTrim name)) = none →
      find_column_by_name_like cols name =
        cols.find? (fun x => strContainsSub (norm x) (norm (strTrim name)))) ∧
    ((∀ x ∈ cols, strTrim x ≠ strTrim name ∧ norm x ≠ norm (strTrim name) ∧
        strContainsSub (norm x) (norm (strTrim name)) = false) →
      find_column_by_name_like cols name = none) := by
  unfold find_column_by_name_like
  rw [if_neg hname]
  refine ⟨?_, ?_, ?_, ?_⟩
  · intro c hc; rw [hc]
  · intro h1 c hc; rw [h1, hc]
  · intro h1 h2; rw [h1, h2]
  · intro hall
    have h1 : cols.find? (fun x => strTrim x == strTrim name) = none :=
      List.find?_eq_none.mpr (fun x hx => by simp [(hall x hx).1])
    have h2 : cols.find? (fun x => norm x == norm (strTrim name)) = none :=
      List.find?_eq_none.mpr (fun x hx => by simp [(hall x hx).2.1])
    have h3 : cols.find? (fun x => strContainsSub (norm x) (norm (strTrim name))) = none :=
      List.find?_eq_none.mpr (fun x hx => by simp [(hall x hx).2.2])
    rw [h1, h2, h3]

/-- C4 witness: on columns `["My Style Code Extra", "Style Code"]` the role
name `"Style Code"` resolves to the exact match even though the substring
match comes first in column order. -/
theorem C4_identifier_resolution_witness :
    find_column_by_name_like ["My Style Code Extra", "Style Code"] "Style Code" =
      some "Style Code" := by
  exact (C4_identifier_resolution ["My Style Code Extra", "Style Code"] "Style Code"
    (by decide)).1 "Style Code" (by decide)
theorem filter_head?_eq_find? {α : Type} (l : List α) (p : α → Bool) :
    (l.filter p).head? = l.find? p := by
  induction l with
  | nil => rfl
  | cons a rest ih =>
    by_cases hp : p a
    · rw [List.filter_cons_of_pos hp, List.find?_cons_of_pos _ hp]
      rfl
    · rw [List.filter_cons_of_neg (by simpa using hp),
        List.find?_cons_of_neg _ (by simpa using hp), ih]

theorem filtered_names_cases (t : Table) (pr : String → Bool) :
    (t.colNames.filter pr = [] ∧ t.cols.find? (fun q => pr q.1) = none) ∨
    (∃ p rest, t.cols.find? (fun q => pr q.1) = some p ∧
      t.colNames.filter pr = p.1 :: rest) := by
  have hh : (t.colNames.filter pr).head? = (t.cols.find? (fun q => pr q.1)).map Prod.fst := by
    unfold Table.colNames
    rw [List.filter_map, List.head?_map, filter_head?_eq_find?]
    rfl
  cases hf : t.cols.find? (fun q => pr q.1) with
  | none =>
    left
    rw [hf] at hh
    simp only [Option.map_none'] at hh
    exact ⟨List.head?_eq_none_iff.mp hh, rfl⟩
  | some p =>
    right
    rw [hf] at hh
    cases hsc : t.colNames.filter pr with
    | nil => rw [hsc] at hh; simp at hh
    | cons c rest =>
      rw [hsc] at hh
      simp only [List.head?_cons, Option.map_some'] at hh
      injection hh with hc
      exact ⟨p, rest, rfl, by rw [hc]⟩

theorem find?_name_of_mem : ∀ (l : List (String × List (Option String)))
    (p : String × List (Option String)),
    (l.map Prod.fst).Nodup → p ∈ l → l.find? (fun q => q.1 == p.1) = some p := by
  intro l
  induction l with
  | nil => intro p _ hp; cases hp
  | cons a rest ih =>
    intro p hnd hp
    rcases List.mem_cons.mp hp with rfl | hmem
    · rw [List.find?_cons_of_pos _ (by simp)]
    · have hne : a.1 ≠ p.1 := by
        intro he
        rw [List.map_cons] at hnd
        have hmemf : p.1 ∈ rest.map Prod.fst := List.mem_map_of_mem Prod.fst hmem
        exact (List.nodup_cons.mp hnd).1 (he ▸ hmemf)
      rw [List.find?_cons_of_neg _ (by simp [hne])]
      rw [List.map_cons] at hnd
      exact ih p (List.nodup_cons.mp hnd).2 hmem

theorem seriesOf_eq (t : Table) (p : String × List (Option String))
    (hnd : t.colNames.Nodup) (hp : p ∈ t.cols) :
    seriesOf t p.1 = p.2.map trimCell := by
  unfold seriesOf Table.getColByName
  rw [find?_name_of_mem t.cols p hnd hp]
  rfl

theorem option1_data_cons {t : Table} {c : String} {rest : List String}
    (h : size_cols t = c :: rest) : option1_data t = seriesOf t c := by
  unfold option1_data
  rw [h]

theorem option1_data_nil {t : Table} (h : size_cols t = []) :
    option1_data t = List.replicate t.nrows "" := by
  unfold option1_data
  rw [h]

theorem option2_data_ss {t : Table} {s c : String} {rest crest : List String}
    (hs : size_cols t = s :: rest) (hc : color_cols t = c :: crest) :
    option2_data t = if c = s then List.replicate t.nrows "" else seriesOf t c := by
  unfold option2_data
  rw [hs, hc]

theorem option2_data_sn {t : Table} {s : String} {rest : List String}
    (hs : size_cols t = s :: rest) (hc : color_cols t = []) :
    option2_data t = List.replicate t.nrows "" := by
  unfold option2_data
  rw [hs, hc]

theorem option2_data_ns {t : Table} {c : String} {crest : List String}
    (hs : size_cols t = []) (hc : color_cols t = c :: crest) :
    option2_data t = seriesOf t c := by
  unfold option2_data
  rw [hs, hc]

theorem option2_data_nn {t : Table} (hs : size_cols t = []) (hc : color_cols t = []) :
    option2_data t = List.replicate t.nrows "" := by
  unfold option2_data
  rw [hs, hc]

/-- C5: option derivation uses the first size-candidate for `Option 1` and
the first color-candidate for `Option 2` (the latter only when it is a
different column from the chosen size column), never interchanging slots,
with trimmed string values, blanks for missing cells, and both series of
length equal to the row count. -/
theorem C5_option_derivation (t : Table) (hWF : t.WF) (hnd : t.colNames.Nodup) :
    ((option1_data t).length = t.nrows ∧ (option2_data t).length = t.nrows) ∧
    (∀ p, t.cols.find? (fun q => sizePred q.1) = some p →
        option1_data t = p.2.map trimCell) ∧
    (t.cols.find? (fun q => sizePred q.1) = none →
        option1_data t = List.replicate t.nrows "") ∧
    (∀ p q, t.cols.find? (fun r => sizePred r.1) = some p →
        t.cols.find? (fun r => colorPred r.1) = some q → q.1 ≠ p.1 →
        option2_data t = q.2.map trimCell) ∧
    (∀ p q, t.cols.find? (fun r => sizePred r.1) = some p →
        t.cols.find? (fun r => colorPred r.1) = some q → q.1 = p.1 →
        option2_data t = List.replicate t.nrows "") ∧
    (t.cols.find? (fun r => sizePred r.1) = none →
      ∀ q, t.cols.find? (fun r => colorPred r.1) = some q →
        option2_data t = q.2.map trimCell) := by
  have hser : ∀ p : String × List (Option String), p ∈ t.cols →
      seriesOf t p.1 = p.2.map trimCell := fun p hp => seriesOf_eq t p hnd hp
  have hserlen : ∀ p : String × List (Option String), p ∈ t.cols →
      (seriesOf t p.1).length = t.nrows := by
    intro p hp
    rw [hser p hp, List.length_map]
    exact hWF p hp
  have hopt1some : ∀ p, t.cols.find? (fun q => sizePred q.1) = some p →
      option1_data t = seriesOf t p.1 := by
    intro p hp
    rcases filtered_names_cases t sizePred with ⟨_, hf⟩ | ⟨p', rest, hf, hsc⟩
    · rw [hp] at hf; cases hf
    · rw [hp] at hf
      injection hf with hpp
      subst hpp
      exact option1_data_cons hsc
  have hopt1none : t.cols.find? (fun q => sizePred q.1) = none →
      option1_data t = List.replicate t.nrows "" := by
    intro hp
    rcases filtered_names_cases t sizePred with ⟨hsc, _⟩ | ⟨p', rest, hf, _⟩
    · exact option1_data_nil hsc
    · rw [hp] at hf; cases hf
  have hopt2sc : ∀ p q, t.cols.find? (fun r => sizePred r.1) = some p →
      t.cols.find? (fun r => colorPred r.1) = some q →
      option2_data t = if q.1 = p.1 then List.replicate t.nrows "" else seriesOf t q.1 := by
    intro p q hp hq
    rcases filtered_names_cases t sizePred with ⟨_, hf⟩ | ⟨p', rest, hf, hsc⟩
    · rw [hp] at hf; cases hf
    · rw [hp] at hf; injection hf with hpp; subst hpp
      rcases filtered_names_cases t colorPred with ⟨_, hcf⟩ | ⟨q', crest, hcf, hcc⟩
      · rw [hq] at hcf; cases hcf
      · rw [hq] at hcf; injection hcf with hqq; subst hqq
        exact option2_data_ss hsc hcc
  have hopt2nc : t.cols.find? (fun r => sizePred r.1) = none →
      ∀ q, t.cols.find? (fun r => colorPred r.1) = some q →
      option2_data t = seriesOf t q.1 := by
    intro hp q hq
    rcases filtered_names_cases t sizePred with ⟨hsc, _⟩ | ⟨p', rest, hf, _⟩
    · rcases filtered_names_cases t colorPred with ⟨_, hcf⟩ | ⟨q', crest, hcf, hcc⟩
      · rw [hq] at hcf; cases hcf
      · rw [hq] at hcf; injection hcf with hqq; subst hqq
        exact option2_data_ns hsc hcc
    · rw [hp] at hf; cases hf
  refine ⟨⟨?_, ?_⟩, ?_, hopt1none, ?_, ?_, ?_⟩
  · rcases filtered_names_cases t sizePred with ⟨hsc, hf⟩ | ⟨p, rest, hf, hsc⟩
    · rw [hopt1none hf]; exact List.length_replicate _ _
    · rw [hopt1some p hf]
      exact hserlen p (List.mem_of_find?_eq_some hf)
  · rcases hfs : t.cols.find? (fun r => sizePred r.1) with _ | p
    · rcases hfc : t.cols.find? (fun r => colorPred r.1) with _ | q
      · rcases filtered_names_cases t sizePred with ⟨hsc, _⟩ | ⟨p', rest, hf, _⟩
        · rcases filtered_names_cases t colorPred with ⟨hcc, _⟩ | ⟨q', crest, hcf, _⟩
          · rw [option2_data_nn hsc hcc]; exact List.length_replicate _ _
          · rw [hfc] at hcf; cases hcf
        · rw [hfs] at hf; cases hf
      · rw [hopt2nc hfs q hfc]
        exact hserlen q (List.mem_of_find?_eq_some hfc)
    · rcases hfc : t.cols.find? (fun r => colorPred r.1) with _ | q
      · rcases filtered_names_cases t sizePred with ⟨_, hf⟩ | ⟨p', rest, hf, hsc⟩
        · rw [hfs] at hf; cases hf
        · rw [hfs] at hf; injection hf with hpp; subst hpp
          rcases filtered_names_cases t colorPred with ⟨hcc, _⟩ | ⟨q', crest, hcf, _⟩
          · rw [option2_data_sn hsc hcc]; exact List.length_replicate _ _
          · rw [hfc] at hcf; cases hcf
      · rw [hopt2sc p q hfs hfc]
        by_cases he : q.1 = p.1
        · rw [if_pos he]; exact List.length_replicate _ _
        · rw [if_neg he]
          exact hserlen q (List.mem_of_find?_eq_some hfc)
  · intro p hp
    rw [hopt1some p hp]
    exact hser p (List.mem_of_find?_eq_some hp)
  · intro p q hp hq hne
    rw [hopt2sc p q hp hq, if_neg hne]
    exact hser q (List.mem_of_find?_eq_some hq)
  · intro p q hp hq he
    rw [hopt2sc p q hp hq, if_pos he]
  · intro hp q hq
    rw [hopt2nc hp q hq]
    exact hser q (List.mem_of_find?_eq_some hq)

/-- C5 witness: a one-row table with `SKU`, `Color`, `Size` columns takes
`Option 1` from `Size` and `Option 2` from `Color`, trimmed. -/
theorem C5_option_derivation_witness :
    (Table.WF ⟨[("SKU", [some "A"]), ("Color", [some " Red "]), ("Size", [some "M"])], 1⟩) ∧
    option1_data ⟨[("SKU", [some "A"]), ("Color", [some " Red "]), ("Size", [some "M"])], 1⟩ = ["M"] ∧
    option2_data ⟨[("SKU", [some "A"]), ("Color", [some " Red "]), ("Size", [some "M"])], 1⟩ = ["Red"] := by
  refine ⟨by unfold Table.WF; decide, ?_, ?_⟩
  · exact ((C5_option_derivation ⟨[("SKU", [some "A"]), ("Color", [some " Red "]),
      ("Size", [some "M"])], 1⟩ (by unfold Table.WF; decide) (by decide)).2.1
      ("Size", [some "M"]) (by decide)).trans (by decide)
  · exact ((C5_option_derivation ⟨[("SKU", [some "A"]), ("Color", [some " Red "]),
      ("Size", [some "M"])], 1⟩ (by unfold Table.WF; decide) (by decide)).2.2.2.1
      ("Size", [some "M"]) ("Color", [some " Red "]) (by decide) (by decide)
      (by decide)).trans (by decide)

theorem firstOccur_eq_spec : ∀ (n : Nat) (l seen : List String), l.length ≤ n →
    firstOccur seen l = specFirstOccurrence (l.filter (fun x => !(decide (x ∈ seen)))) := by
  intro n
  induction n with
  | zero =>
    intro l seen h
    have hl : l = [] := List.eq_nil_of_length_eq_zero (by omega)
    subst hl
    simp [firstOccur, specFirstOccurrence]
  | succ n ih =>
    intro l seen h
    cases l with
    | nil => simp [firstOccur, specFirstOccurrence]
    | cons x rest =>
      simp only [List.length_cons] at h
      by_cases hx : x ∈ seen
      · rw [show firstOccur seen (x :: rest) = firstOccur seen rest from by
          simp [firstOccur, hx]]
        rw [ih rest seen (by omega)]
        congr 1
        rw [List.filter_cons_of_neg (by simp [hx])]
      · rw [show firstOccur seen (x :: rest) = x :: firstOccur (x :: seen) rest from by
          simp [firstOccur, hx]]
        rw [ih rest (x :: seen) (by omega)]
        rw [List.filter_cons_of_pos (by simp [hx])]
        rw [show specFirstOccurrence (x :: rest.filter (fun y => !(decide (y ∈ seen)))) =
          x :: specFirstOccurrence ((rest.filter (fun y => !(decide (y ∈ seen)))).filter
            (fun y => !(y == x))) from by rw [specFirstOccurrence]]
        congr 1
        rw [List.filter_filter]
        congr 1
        apply List.filter_congr
        intro y _
        by_cases h1 : y = x <;> by_cases h2 : y ∈ seen <;> simp [h1, h2]

theorem mem_firstOccur : ∀ (l seen : List String) (x : String),
    x ∈ firstOccur seen l ↔ x ∈ l ∧ x ∉ seen := by
  intro l
  induction l with
  | nil => intro seen x; simp [firstOccur]
  | cons a rest ih =>
    intro seen x
    by_cases ha : a ∈ seen
    · rw [show firstOccur seen (a :: rest) = firstOccur seen rest from by
        simp [firstOccur, ha]]
      rw [ih]
      constructor
      · rintro ⟨h1, h2⟩
        exact ⟨List.mem_cons_of_mem a h1, h2⟩
      · rintro ⟨h1, h2⟩
        rcases List.mem_cons.mp h1 with rfl | h1
        · exact absurd ha h2
        · exact ⟨h1, h2⟩
    · rw [show firstOccur seen (a :: rest) = a :: firstOccur (a :: seen) rest from by
        simp [firstOccur, ha]]
      constructor
      · intro hmem
        rcases List.mem_cons.mp hmem with rfl | hmem
        · exact ⟨List.mem_cons_self _ _, ha⟩
        · obtain ⟨h1, h2⟩ := (ih (a :: seen) x).mp hmem
          exact ⟨List.mem_cons_of_mem a h1,
            fun hx => h2 (List.mem_cons_of_mem a hx)⟩
      · rintro ⟨h1, h2⟩
        by_cases hxa : x = a
        · subst hxa; exact List.mem_cons_self _ _
        · rcases List.mem_cons.mp h1 with rfl | h1
          · exact absurd rfl hxa
          · refine List.mem_cons_of_mem a ((ih (a :: seen) x).mpr ⟨h1, fun hx => ?_⟩)
            rcases List.mem_cons.mp hx with rfl | hx
            · exact hxa rfl
            · exact h2 hx

theorem nodup_firstOccur : ∀ (l seen : List String), (firstOccur seen l).Nodup := by
  intro l
  induction l with
  | nil => intro seen; simp [firstOccur]
  | cons a rest ih =>
    intro seen
    by_cases ha : a ∈ seen
    · rw [show firstOccur seen (a :: rest) = firstOccur seen rest from by
        simp [firstOccur, ha]]
      exact ih seen
    · rw [show firstOccur seen (a :: rest) = a :: firstOccur (a :: seen) rest from by
        simp [firstOccur, ha]]
      refine List.nodup_cons.mpr ⟨?_, ih (a :: seen)⟩
      intro hmem
      exact ((mem_firstOccur rest (a :: seen) a).mp hmem).2 (List.mem_cons_self _ _)

/-- C7: the distinct-value list of an Option series is obtained by dropping
blank entries and collecting the remaining values in order of first
appearance — it equals the direct first-occurrence collection of the
non-blank values, has no duplicates, and contains exactly the non-blank
values of the series; the spec's example evaluates as stated.  Both
`unique_opt1` and `unique_opt2` are this operation applied to the Option
series, and the result is a pure function of the input, hence
deterministic. -/
theorem C7_distinct_values (l : List String) :
    distinctNonBlank l = specFirstOccurrence (l.filter (fun v => !(v == ""))) ∧
    (distinctNonBlank l).Nodup ∧
    (∀ x, x ∈ distinctNonBlank l ↔ x ∈ l ∧ x ≠ "") ∧
    (∀ t : Table, unique_opt1 t = distinctNonBlank (option1_data t) ∧
      unique_opt2 t = distinctNonBlank (option2_data t)) ∧
    distinctNonBlank ["M", "L", "M", "S"] = ["M", "L", "S"] := by
  refine ⟨?_, nodup_firstOccur _ [], ?_, fun t => ⟨rfl, rfl⟩, by decide⟩
  · unfold distinctNonBlank pdUnique
    rw [firstOccur_eq_spec (l.filter (fun v => !(v == ""))).length _ [] le_rfl]
    congr 1
    apply List.filter_eq_self.mpr
    intro y _
    simp
  · intro x
    unfold distinctNonBlank pdUnique
    rw [mem_firstOccur]
    simp only [List.not_mem_nil, not_false_eq_true, and_true, List.mem_filter,
      Bool.not_eq_true', beq_eq_false_iff_ne, ne_eq]

/-! ### Worksheets and the template writer (src/app.py lines 292-424)

An openpyxl worksheet is embedded as a cell map plus its `max_column`.
Writing a cell (openpyxl `ws.cell(row=..., column=..., value=...)`) sets the
value and materializes the cell, so `max_column` grows to cover every
written column.  `number_format = "@"` (text formatting) is presentational
and not modelled; cell probing in `first_empty_col` is treated as a pure
read. -/

structure Sheet where
  cells : Nat → Nat → Option String
  maxColumn : Nat

/-- Reads a cell value (1-indexed row and column). -/
def Sheet.get (ws : Sheet) (r c : Nat) : Option String := ws.cells r c

/-- Writes a cell value (1-indexed row and column). -/
def Sheet.set (ws : Sheet) (r c : Nat) (v : Option String) : Sheet :=
  { cells := fun r' c' => if r' = r ∧ c' = c then v else ws.cells r' c',
    maxColumn := max ws.maxColumn c }

/-- The blank test of `first_empty_col`: `value not in (None, "")`. -/
def cellBlank (v : Option String) : Bool :=
  match v with
  | none => true
  | some s => s == ""

/-- Embeds `first_empty_col` (src/app.py lines 296-305): scan columns 1..200
left to right for the first column whose probed rows are all blank; if none
is found, fall back to `ws.max_column + 1`. -/
def first_empty_col (ws : Sheet) (headerRows : List Nat) : Nat :=
  match (List.range' 1 200).find? (fun c => headerRows.all (fun r => cellBlank (ws.get r c))) with
  | some c => c
  | none => ws.maxColumn + 1

/-- One `ColumnMeta` entry of the auto-mapper (src/app.py line 273). -/
structure ColMeta where
  src : String
  out : String
  row3 : String
  row4 : String

/-- The auto-mode classification loop (src/app.py lines 270-273): every
column is mandatory, passed through under its own name, and typed
`imageurlarray` or `string` by the image heuristic. -/
def columns_meta (t : Table) : List ColMeta :=
  t.cols.map (fun p =>
    { src := p.1, out := p.1, row3 := "mandatory",
      row4 := if is_image_column (norm p.1) p.2 then "imageurlarray" else "string" })

/-- Writes a list of cell values down one column starting at a given row
(the `for r_idx, value in enumerate(..., start=2)` loops). -/
def writeColVals : Sheet → Nat → Nat → List (Option String) → Sheet
  | ws, _, _, [] => ws
  | ws, r, c, v :: rest => writeColVals (ws.set r c v) (r + 1) c rest

/-- `v if v else None`: blank strings are written as true blanks. -/
def strOrNone (v : String) : Option String := if v = "" then none else some v

/-- `.fillna("").astype(str)` on a column. -/
def fillnaStr (vals : List (Option String)) : List String :=
  vals.map (fun v => match v with | none => "" | some s => s)

/-- Writes one classified column into both sheets (src/app.py lines
311-329): cleaned label in `Values` row 1, data rows beneath (missing stays
blank, values stringified), label mirrored into `Types` rows 1-2, mandatory
flag in row 3, type tag in row 4. -/
def writeMetaCol (wsV wsT : Sheet) (vcol tcol : Nat) (m : ColMeta)
    (vals : List (Option String)) : Sheet × Sheet :=
  let wsV1 := (wsV.set 1 vcol (some (clean_header m.out)))
  let wsV2 := writeColVals wsV1 2 vcol vals
  let wsT1 := (((wsT.set 1 tcol (some (clean_header m.out))).set 2 tcol
      (some (clean_header m.out))).set 3 tcol (some m.row3)).set 4 tcol (some m.row4)
  (wsV2, wsT1)

/-- The classified-column write loop, advancing one column per entry. -/
def writeMetaBlock (t : Table) : Sheet × Sheet → Nat → Nat → List ColMeta → Sheet × Sheet
  | ws, _, _, [] => ws
  | ws, vcol, tcol, m :: rest =>
    writeMetaBlock t
      (writeMetaCol ws.1 ws.2 vcol tcol m ((t.getColByName m.src).getD []))
      (vcol + 1) (tcol + 1) rest

/-- The `Option 1` / `Option 2` value-sheet block (src/app.py lines 331-339). -/
def writeOptionsValues (wsV : Sheet) (opt1col opt2col : Nat)
    (opt1 opt2 : List String) : Sheet :=
  let wsV1 := wsV.set 1 opt1col (some "Option 1")
  let wsV2 := wsV1.set 1 opt2col (some "Option 2")
  let wsV3 := writeColVals wsV2 2 opt1col (opt1.map strOrNone)
  writeColVals wsV3 2 opt2col (opt2.map strOrNone)

/-- The `Option 1` / `Option 2` types-sheet block (src/app.py lines
341-354), including the distinct-value validation lists from row 5 down. -/
def writeOptionsTypes (wsT : Sheet) (opt1col opt2col : Nat)
    (u1 u2 : List String) : Sheet :=
  let wsT1 := (((wsT.set 1 opt1col (some "Option 1")).set 2 opt1col
      (some "Option 1")).set 3 opt1col (some "non mandatory")).set 4 opt1col (some "select")
  let wsT2 := (((wsT1.set 1 opt2col (some "Option 2")).set 2 opt2col
      (some "Option 2")).set 3 opt2col (some "non mandatory")).set 4 opt2col (some "select")
  let wsT3 := writeColVals wsT2 5 opt1col (u1.map some)
  writeColVals wsT3 5 opt2col (u2.map some)

/-- The presence test of `append_id_columns` (src/app.py lines 358-359):
`series.replace("", pd.NA).dropna().shape[0] > 0`. -/
def seriesHasValue (s : List String) : Bool :=
  decide (0 < (s.filter (fun v => !(v == ""))).length)

/-- Writes one identifier column into both sheets (src/app.py lines
366-385). -/
def writeIdCol (wsV wsT : Sheet) (vcol tcol : Nat) (label : String)
    (vals : List String) : Sheet × Sheet :=
  let wsV1 := wsV.set 1 vcol (some label)
  let wsV2 := writeColVals wsV1 2 vcol (vals.map strOrNone)
  let wsT1 := (((wsT.set 1 tcol (some label)).set 2 tcol (some label)).set 3 tcol
      (some "mandatory")).set 4 tcol (some "string")
  (wsV2, wsT1)

/-- Embeds `append_id_columns` (src/app.py lines 357-385): a no-op unless at
least one series has a non-empty entry; otherwise writes `variantId` (when
present) then `productId` (when present) at consecutive columns starting two
past the option columns. -/
def append_id_columns (wsV wsT : Sheet) (afterV afterT : Nat)
    (variant product : Option (List String)) : Sheet × Sheet :=
  let hasVar := (variant.map seriesHasValue).getD false
  let hasProd := (product.map seriesHasValue).getD false
  if hasVar || hasProd then
    let s1 :=
      if hasVar then writeIdCol wsV wsT afterV afterT "variantId" (variant.getD [])
      else (wsV, wsT)
    let curV := if hasVar then afterV + 1 else afterV
    let curT := if hasVar then afterT + 1 else afterT
    if hasProd then writeIdCol s1.1 s1.2 curV curT "productId" (product.getD [])
    else s1
  else (wsV, wsT)

/-- The trailing `BatchID` block (src/app.py lines 407-418). -/
def writeBatchBlock (wsV wsT : Sheet) (numRows : Nat) (batchStr : String) : Sheet × Sheet :=
  let bv := first_empty_col wsV [1]
  let wsV1 := wsV.set 1 bv (some "BatchID")
  let wsV2 := writeColVals wsV1 2 bv (List.replicate numRows (some batchStr))
  let bt := first_empty_col wsT [1, 2, 3, 4]
  let wsT1 := (((wsT.set 1 bt (some "BatchID")).set 2 bt (some "BatchID")).set 3 bt
      (some "non mandatory")).set 4 bt (some "string")
  (wsV2, wsT1)

/-- `MARKETPLACE_ID_MAP` (src/app.py lines 168-176): per marketplace, the
`(productId source, variantId source)` header pair. -/
def MARKETPLACE_ID_MAP (m : String) : Option (String × String) :=
  if m = "Amazon" then some ("Parent SKU", "SKU")
  else if m = "Myntra" then some ("styleId", "styleGroupId")
  else if m = "Ajio" then some ("*Item SKU", "*Style Code")
  else if m = "Flipkart" then some ("Seller SKU ID", "Style Code")
  else if m = "TataCliq" then some ("Seller Article SKU", "*Style Code")
  else if m = "Zivame" then some ("Style Code", "SKU Code")
  else if m = "Celio" then some ("Style Code", "SKU Code")
  else none

/-- The identifier series of a resolved column name (src/app.py lines
403-404): `src_df[col].fillna("").astype(str)` when a column was resolved
(Python truthiness: an empty-string name counts as unresolved). -/
def idSeriesOf (t : Table) (col : Option String) : Option (List String) :=
  match col with
  | some c => if c = "" then none else (t.getColByName c).map fillnaStr
  | none => none

/-- The caller-selected identifier series in General mode (src/app.py lines
388-395). -/
def selIdSeries (t : Table) (sel : Option String) : Option (List String) :=
  match sel with
  | some c =>
    if c = "(none)" ∨ c = "" then none
    else
      match t.getColByName c with
      | some vals => some (fillnaStr vals)
      | none => none
  | none => none

/-- Sheet lookup `wb[name]` over the workbook's (name, sheet) entries. -/
def lookupSheet (wb : List (String × Sheet)) (n : String) : Option Sheet :=
  (wb.find? (fun p => p.1 == n)).map Prod.snd

/-- In-place mutation of one named sheet, embedded functionally. -/
def updateSheet : List (String × Sheet) → String → Sheet → List (String × Sheet)
  | [], _, _ => []
  | (n, s) :: rest, m, ns =>
    if n = m then (n, ns) :: rest else (n, s) :: updateSheet rest m ns

/-- The identifier-series resolution of the write phase (src/app.py lines
387-405): caller-selected columns in General mode, marketplace role lookup
otherwise; the pair is `(variant series, product series)`. -/
def resolveIds (t : Table) (marketplace : String) (selVariant selProduct : Option String) :
    Option (List String) × Option (List String) :=
  if marketplace = "General" then
    (selIdSeries t selVariant, selIdSeries t selProduct)
  else
    match MARKETPLACE_ID_MAP marketplace with
    | some pm =>
      (idSeriesOf t (find_column_by_name_like t.colNames pm.2),
       idSeriesOf t (find_column_by_name_like t.colNames pm.1))
    | none => (none, none)

/-- Column where the `Option 1` block starts on `Values`:
`vals_start_col + len(columns_meta)`. -/
def optStartV (wsV0 : Sheet) (t : Table) : Nat :=
  first_empty_col wsV0 [1] + (columns_meta t).length

/-- Column where the `Option 1` block starts on `Types`:
`types_start_col + len(columns_meta)`. -/
def optStartT (wsT0 : Sheet) (t : Table) : Nat :=
  first_empty_col wsT0 [1, 2, 3, 4] + (columns_meta t).length

/-- Sheets after the classified-column loop (src/app.py lines 311-329). -/
def metaSheets (wsV0 wsT0 : Sheet) (t : Table) : Sheet × Sheet :=
  writeMetaBlock t (wsV0, wsT0) (first_empty_col wsV0 [1])
    (first_empty_col wsT0 [1, 2, 3, 4]) (columns_meta t)

/-- Sheets after the option blocks (src/app.py lines 331-354). -/
def optionSheets (wsV0 wsT0 : Sheet) (t : Table) : Sheet × Sheet :=
  (writeOptionsValues (metaSheets wsV0 wsT0 t).1 (optStartV wsV0 t)
      (optStartV wsV0 t + 1) (option1_data t) (option2_data t),
   writeOptionsTypes (metaSheets wsV0 wsT0 t).2 (optStartT wsT0 t)
      (optStartT wsT0 t + 1) (unique_opt1 t) (unique_opt2 t))

/-- Sheets after the identifier block (src/app.py lines 356-405). -/
def idSheets (wsV0 wsT0 : Sheet) (t : Table) (marketplace : String)
    (selVariant selProduct : Option String) : Sheet × Sheet :=
  append_id_columns (optionSheets wsV0 wsT0 t).1 (optionSheets wsV0 wsT0 t).2
    (optStartV wsV0 t + 2) (optStartT wsT0 t + 2)
    (resolveIds t marketplace selVariant selProduct).1
    (resolveIds t marketplace selVariant selProduct).2

/-- The two final sheets of the write phase, after the `BatchID` block
(src/app.py lines 407-418). -/
def process_write_core (wsV0 wsT0 : Sheet) (t : Table) (marketplace : String)
    (selVariant selProduct : Option String) (batchId : Nat) : Sheet × Sheet :=
  writeBatchBlock (idSheets wsV0 wsT0 t marketplace selVariant selProduct).1
    (idSheets wsV0 wsT0 t marketplace selVariant selProduct).2
    t.nrows (natRepr batchId)

/-- The write phase of `process_file` (src/app.py lines 292-424): locate the
insertion columns, write the classified columns, the option block, the
identifier block, and the `BatchID` block into the `Values` and `Types`
sheets of the template workbook, and return the resulting workbook.  The
batch id is claimed before this phase and passed in; loading `wb["Values"]`
or `wb["Types"]` fails when the template lacks either sheet. -/
def process_write (template : List (String × Sheet)) (t : Table) (marketplace : String)
    (selVariant selProduct : Option String) (batchId : Nat) :
    Except String (List (String × Sheet)) :=
  match lookupSheet template "Values", lookupSheet template "Types" with
  | some wsV0, some wsT0 =>
    .ok (updateSheet (updateSheet template "Values"
      (process_write_core wsV0 wsT0 t marketplace selVariant selProduct batchId).1)
      "Types" (process_write_core wsV0 wsT0 t marketplace selVariant selProduct batchId).2)
  | _, _ => .error "template workbook must contain the Values and Types sheets"

/-- The sheet of a given name in a successful write result. -/
def outSheet (e : Except String (List (String × Sheet))) (n : String) : Option Sheet :=
  match e with
  | .ok wb => lookupSheet wb n
  | .error _ => none

/-- A cell of a given sheet in a successful write result. -/
def outCell (e : Except String (List (String × Sheet))) (n : String) (r c : Nat) : Option String :=
  match outSheet e n with
  | some ws => ws.get r c
  | none => none

theorem Sheet.get_set_same (ws : Sheet) (r c : Nat) (v : Option String) :
    (ws.set r c v).get r c = v := by
  simp [Sheet.set, Sheet.get]

theorem Sheet.get_set_ne (ws : Sheet) (r c r' c' : Nat) (v : Option String)
    (h : ¬(r' = r ∧ c' = c)) : (ws.set r c v).get r' c' = ws.get r' c' := by
  simp only [Sheet.set, Sheet.get]
  rw [if_neg h]

theorem Sheet.maxColumn_set (ws : Sheet) (r c : Nat) (v : Option String) :
    (ws.set r c v).maxColumn = max ws.maxColumn c := rfl

theorem writeColVals_get_row_lt : ∀ (vals : List (Option String)) (ws : Sheet)
    (r c r' c' : Nat), r' < r → (writeColVals ws r c vals).get r' c' = ws.get r' c' := by
  intro vals
  induction vals with
  | nil => intro ws r c r' c' h; rfl
  | cons v rest ih =>
    intro ws r c r' c' h
    show (writeColVals (ws.set r c v) (r + 1) c rest).get r' c' = _
    rw [ih _ _ _ _ _ (by omega)]
    exact Sheet.get_set_ne ws r c r' c' v (fun hh => by obtain ⟨h1, _⟩ := hh; omega)

theorem writeColVals_get_ne_col : ∀ (vals : List (Option String)) (ws : Sheet)
    (r c r' c' : Nat), c' ≠ c → (writeColVals ws r c vals).get r' c' = ws.get r' c' := by
  intro vals
  induction vals with
  | nil => intro ws r c r' c' h; rfl
  | cons v rest ih =>
    intro ws r c r' c' h
    show (writeColVals (ws.set r c v) (r + 1) c rest).get r' c' = _
    rw [ih _ _ _ _ _ h]
    exact Sheet.get_set_ne ws r c r' c' v (fun hh => h hh.2)

theorem writeColVals_get_at : ∀ (vals : List (Option String)) (ws : Sheet)
    (r c i : Nat) (v : Option String), vals.get? i = some v →
    (writeColVals ws r c vals).get (r + i) c = v := by
  intro vals
  induction vals with
  | nil => intro ws r c i v h; simp at h
  | cons w rest ih =>
    intro ws r c i v h
    cases i with
    | zero =>
      show (writeColVals (ws.set r c w) (r + 1) c rest).get (r + 0) c = v
      rw [writeColVals_get_row_lt rest _ _ _ _ _ (by omega)]
      rw [Nat.add_zero, Sheet.get_set_same]
      simpa using h
    | succ j =>
      show (writeColVals (ws.set r c w) (r + 1) c rest).get (r + (j + 1)) c = v
      rw [show r + (j + 1) = (r + 1) + j from by omega]
      exact ih _ _ _ _ _ (by simpa using h)

theorem writeColVals_maxColumn : ∀ (vals : List (Option String)) (ws : Sheet) (r c : Nat),
    ws.maxColumn ≤ (writeColVals ws r c vals).maxColumn := by
  intro vals
  induction vals with
  | nil => intro ws r c; exact le_rfl
  | cons v rest ih =>
    intro ws r c
    calc ws.maxColumn ≤ (ws.set r c v).maxColumn := by
          rw [Sheet.maxColumn_set]; exact le_max_left _ _
    _ ≤ _ := ih _ _ _

theorem first_empty_col_spec (ws : Sheet) (rows : List Nat) :
    (first_empty_col ws rows ≤ 200 ∧ 1 ≤ first_empty_col ws rows ∧
      (∀ r ∈ rows, cellBlank (ws.get r (first_empty_col ws rows)) = true)) ∨
    first_empty_col ws rows = ws.maxColumn + 1 := by
  unfold first_empty_col
  cases hf : (List.range' 1 200).find?
      (fun c => rows.all (fun r => cellBlank (ws.get r c))) with
  | none => right; rfl
  | some c =>
    left
    show c ≤ 200 ∧ 1 ≤ c ∧ ∀ r ∈ rows, cellBlank (ws.get r c) = true
    have hmem := List.mem_of_find?_eq_some hf
    have hpred := List.find?_some hf
    rw [List.mem_range'_1] at hmem
    refine ⟨by omega, by omega, fun r hr => ?_⟩
    exact List.all_eq_true.mp hpred r hr

theorem first_empty_col_ne_of_nonblank (ws : Sheet) (rows : List Nat) (c0 r0 : Nat)
    (hr0 : r0 ∈ rows) (hnb : cellBlank (ws.get r0 c0) = false)
    (hmax : c0 ≤ ws.maxColumn) : first_empty_col ws rows ≠ c0 := by
  rcases first_empty_col_spec ws rows with ⟨_, _, hall⟩ | hfb
  · intro he
    rw [he] at hall
    rw [hall r0 hr0] at hnb
    cases hnb
  · intro he
    rw [he] at hfb
    omega

/-- A `Values` sheet whose first row is non-blank across the whole probe
window (columns 1..200). -/
def fullRowSheet : Sheet :=
  { cells := fun r c => if r = 1 ∧ 1 ≤ c ∧ c ≤ 200 then some "x" else none,
    maxColumn := 200 }

/-- An empty worksheet (openpyxl reports `max_column = 1` for it). -/
def emptySheet : Sheet := { cells := fun _ _ => none, maxColumn := 1 }

/-- C2, corrected claim: when the bounded probe finds no fully-blank column
within columns 1..200, `first_empty_col` does not raise — it falls back to
`ws.max_column + 1` and the template write proceeds at that column.  (The
failure demanded by the claim is refuted by
`C2_probe_fallback_counterexample`.) -/
theorem C2_probe_fallback_amended (ws : Sheet) (rows : List Nat)
    (h : ∀ c ∈ List.range' 1 200, rows.all (fun r => cellBlank (ws.get r c)) = false) :
    first_empty_col ws rows = ws.maxColumn + 1 := by
  unfold first_empty_col
  have hnone : (List.range' 1 200).find?
      (fun c => rows.all (fun r => cellBlank (ws.get r c))) = none := by
    rw [List.find?_eq_none]
    intro c hc
    rw [h c hc]
    exact Bool.false_ne_true
  rw [hnone]

set_option maxRecDepth 40000 in
/-- C2 counterexample: with row 1 non-blank across the whole 200-column
window, `first_empty_col` returns the fallback column `max_column + 1 = 201`
instead of failing, and the write pipeline completes and returns a workbook. -/
theorem C2_probe_fallback_counterexample :
    first_empty_col fullRowSheet [1] = 201 ∧
    (process_write [("Values", fullRowSheet), ("Types", emptySheet)]
      ⟨[("SKU", [some "A"])], 1⟩ "General" none none 1).isOk = true := by
  constructor
  · decide
  · rfl

set_option maxRecDepth 40000 in
/-- C2 witness: the amended theorem applied to the fully-occupied probe
window. -/
theorem C2_probe_fallback_witness :
    (∀ c ∈ List.range' 1 200, ([1].all (fun r => cellBlank (fullRowSheet.get r c))) = false) ∧
    first_empty_col fullRowSheet [1] = fullRowSheet.maxColumn + 1 := by
  refine ⟨by decide, ?_⟩
  exact C2_probe_fallback_amended fullRowSheet [1] (by decide)
theorem writeIdCol_get_fst_hdr (wsV wsT : Sheet) (vcol tcol : Nat) (label : String)
    (vals : List String) :
    (writeIdCol wsV wsT vcol tcol label vals).1.get 1 vcol = some label := by
  unfold writeIdCol
  show (writeColVals (wsV.set 1 vcol (some label)) 2 vcol (vals.map strOrNone)).get 1 vcol =
    some label
  rw [writeColVals_get_row_lt _ _ _ _ _ _ (by omega)]
  exact Sheet.get_set_same _ _ _ _

theorem writeIdCol_get_fst_ne (wsV wsT : Sheet) (vcol tcol : Nat) (label : String)
    (vals : List String) (r c : Nat) (h : c ≠ vcol) :
    (writeIdCol wsV wsT vcol tcol label vals).1.get r c = wsV.get r c := by
  unfold writeIdCol
  show (writeColVals (wsV.set 1 vcol (some label)) 2 vcol (vals.map strOrNone)).get r c = _
  rw [writeColVals_get_ne_col _ _ _ _ _ _ h]
  exact Sheet.get_set_ne _ _ _ _ _ _ (fun hh => h hh.2)

/-- C6, corrected claim: the identifier block is written iff at least one of
the two resolved series contains at least one non-empty value, without
trimming — a series of all-whitespace values counts as present (the claim's
"non-blank after trimming" is refuted by `C6_presence_counterexample`).
When neither series qualifies the sheets are returned unchanged; otherwise
the qualifying column headers are written. -/
theorem C6_presence_amended (wsV wsT : Sheet) (afterV afterT : Nat)
    (variant product : Option (List String)) :
    (((variant.map seriesHasValue).getD false = false ∧
      (product.map seriesHasValue).getD false = false) →
      append_id_columns wsV wsT afterV afterT variant product = (wsV, wsT)) ∧
    (∀ s, variant = some s → seriesHasValue s = true →
      (append_id_columns wsV wsT afterV afterT variant product).1.get 1 afterV =
        some "variantId") ∧
    ((variant.map seriesHasValue).getD false = false →
      ∀ s, product = some s → seriesHasValue s = true →
      (append_id_columns wsV wsT afterV afterT variant product).1.get 1 afterV =
        some "productId") ∧
    (∀ s : List String, seriesHasValue s = true ↔ ∃ v ∈ s, v ≠ "") := by
  refine ⟨?_, ?_, ?_, ?_⟩
  · rintro ⟨h1, h2⟩
    simp only [append_id_columns, h1, h2, Bool.or_self, Bool.false_eq_true, if_false]
  · intro s hs hval
    have hvar : (variant.map seriesHasValue).getD false = true := by
      rw [hs, Option.map_some', Option.getD_some, hval]
    simp only [append_id_columns, hvar, Bool.true_or, if_true, if_pos rfl]
    cases hp : (product.map seriesHasValue).getD false with
    | false =>
      rw [if_neg Bool.false_ne_true]
      exact writeIdCol_get_fst_hdr _ _ _ _ _ _
    | true =>
      rw [if_pos rfl]
      rw [writeIdCol_get_fst_ne _ _ _ _ _ _ _ _ (by omega)]
      exact writeIdCol_get_fst_hdr _ _ _ _ _ _
  · intro hvar s hs hval
    have hprod : (product.map seriesHasValue).getD false = true := by
      rw [hs, Option.map_some', Option.getD_some, hval]
    simp only [append_id_columns, hvar, hprod, Bool.false_or, if_true,
      Bool.false_eq_true, if_false]
    exact writeIdCol_get_fst_hdr _ _ _ _ _ _
  · intro s
    unfold seriesHasValue
    rw [decide_eq_true_eq, List.length_pos_iff_exists_mem]
    constructor
    · rintro ⟨a, ha⟩
      obtain ⟨ha1, ha2⟩ := List.mem_filter.mp ha
      exact ⟨a, ha1, by simpa using ha2⟩
    · rintro ⟨v, hv1, hv2⟩
      exact ⟨v, List.mem_filter.mpr ⟨hv1, by simpa using hv2⟩⟩

/-- C6 counterexample: an all-whitespace variant series counts as present —
`append_id_columns` writes the `variantId` header even though every value of
the series is blank after trimming, contradicting the claim as stated. -/
theorem C6_presence_counterexample :
    seriesHasValue [" "] = true ∧
    (∀ v ∈ [" "], strTrim v = "") ∧
    (append_id_columns emptySheet emptySheet 1 1 (some [" "]) none).1.get 1 1 =
      some "variantId" := by
  refine ⟨by decide, by decide, by decide⟩

/-- C6 witness: the amended theorem applied to a series holding one
non-empty value, and to the no-op case of two absent series. -/
theorem C6_presence_witness :
    (append_id_columns emptySheet emptySheet 3 3 (some ["A"]) none).1.get 1 3 =
      some "variantId" ∧
    append_id_columns emptySheet emptySheet 3 3 none none = (emptySheet, emptySheet) := by
  constructor
  · exact (C6_presence_amended emptySheet emptySheet 3 3 (some ["A"]) none).2.1
      ["A"] rfl (by decide)
  · exact (C6_presence_amended emptySheet emptySheet 3 3 none none).1 ⟨rfl, rfl⟩

/-! ### Reading the input workbook (`read_input_to_df`, src/app.py lines 194-245) -/

/-- A raw uploaded workbook: named sheets holding untyped cell grids. -/
structure XlBook where
  sheets : List (String × List (List (Option String)))

/-- `xl.sheet_names`. -/
def XlBook.sheetNames (wb : XlBook) : List String := wb.sheets.map Prod.fst

/-- `xl.parse(name, header=None)`: the grid of the named sheet; pandas
raises when the sheet does not exist. -/
def parseByName (wb : XlBook) (nm : String) : Except String (List (List (Option String))) :=
  match wb.sheets.find? (fun p => p.1 == nm) with
  | some p => .ok p.2
  | none => .error ("Worksheet named " ++ nm ++ " not found")

/-- `xl.parse(xl.sheet_names[i], header=None)`: `IndexError` when the
workbook has at most `i` sheets. -/
def parseByIndex (wb : XlBook) (i : Nat) : Except String (List (List (Option String))) :=
  match wb.sheets.get? i with
  | some p => .ok p.2
  | none => .error "list index out of range"

/-- Python index resolution: negative indices count from the end. -/
def ilocIdx (len : Nat) (i : Int) : Int := if i < 0 then (len : Int) + i else i

/-- Scalar `DataFrame.iloc[i]`, failing out of bounds like pandas. -/
def ilocRow (grid : List (List (Option String))) (i : Int) :
    Except String (List (Option String)) :=
  if ilocIdx grid.length i < 0 then .error "single positional indexer is out-of-bounds"
  else
    match grid.get? (ilocIdx grid.length i).toNat with
    | some r => .ok r
    | none => .error "single positional indexer is out-of-bounds"

/-- Slice `DataFrame.iloc[i:]` with Python slice clamping. -/
def ilocFrom (grid : List (List (Option String))) (i : Int) :
    List (List (Option String)) :=
  grid.drop (max 0 (ilocIdx grid.length i)).toNat

/-- One entry of the `marketplace_configs` dict (src/app.py lines 195-202). -/
structure MpConfig where
  sheet : Option String
  headerRow : Int
  dataRow : Int
  sheetIndex : Option Nat

/-- `marketplace_configs.get(marketplace, configs["General"])`. -/
def marketplace_configs (marketplace : String) (headerRow dataRow : Int) : MpConfig :=
  if marketplace = "Amazon" then ⟨some "Template", 4, 7, none⟩
  else if marketplace = "Flipkart" then ⟨none, 1, 5, some 2⟩
  else if marketplace = "Myntra" then ⟨none, 3, 4, some 1⟩
  else if marketplace = "Ajio" then ⟨none, 2, 3, some 2⟩
  else if marketplace = "TataCliq" then ⟨none, 4, 6, some 0⟩
  else ⟨none, headerRow, dataRow, some 0⟩

/-- Builds the raw `src_df` from a grid: header row at `header_row - 1`,
data region from `data_row - 1`, de-duplicated column names; data rows are
rectangularized with missing cells (as the pandas grid is). -/
def buildTable (grid : List (List (Option String))) (headerRow dataRow : Int) :
    Except String Table :=
  match ilocRow grid (headerRow - 1) with
  | .error e => .error e
  | .ok hdr =>
    let headers := dedupe_columns hdr
    let dataRows := ilocFrom grid (dataRow - 1)
    .ok { nrows := dataRows.length,
          cols := headers.enum.map (fun p => (p.2, dataRows.map (fun r => r.getD p.1 none))) }

/-- `str(x)` of one cell under `astype(str)` — pandas renders a missing
value as the string `"nan"`. -/
def cellStr (v : Option String) : String :=
  match v with
  | none => "nan"
  | some s => s

/-- Filters a list by a parallel boolean mask. -/
def maskFilter {α : Type} (mask : List Bool) (l : List α) : List α :=
  ((l.zip mask).filter (fun p => p.2)).map Prod.fst

/-- The Amazon parent-row filter (src/app.py lines 224-233): drop every row
whose `Parentage Level`-like cell equals `"parent"` after stripping and
lowering; skipped when no such column resolves (a resolved empty name is
falsy in Python and also skips). -/
def dropParentRows (t : Table) : Table :=
  match find_column_by_name_like t.colNames "Parentage Level" with
  | none => t
  | some pname =>
    if pname = "" then t
    else
      match t.getColByName pname with
      | none => t
      | some pvals =>
        let keep : List Bool :=
          pvals.map (fun v => !(strLower (strTrim (cellStr v)) == "parent"))
        { nrows := (keep.filter (fun b => b)).length,
          cols := t.cols.map (fun p => (p.1, maskFilter keep p.2)) }

/-- `dropna(axis=1, how='all')` (src/app.py line 244): drop columns missing
in every row. -/
def dropEmptyCols (t : Table) : Table :=
  { t with cols := t.cols.filter (fun p => p.2.any (fun v => v.isSome)) }

/-- Python truthiness of the General-mode sheet-name argument. -/
def sheetNameTruthy (s : Option String) : Bool :=
  match s with
  | some nm => !(nm == "")
  | none => false

/-- The branching body of `read_input_to_df` before the final column drop. -/
def read_input_core (wb : XlBook) (marketplace : String) (headerRow dataRow : Int)
    (sheetName : Option String) : Except String Table :=
  if (marketplace == "General") && sheetNameTruthy sheetName then
    match parseByName wb (sheetName.getD "") with
    | .error e => .error e
    | .ok grid => buildTable grid headerRow dataRow
  else
    match (marketplace_configs marketplace headerRow dataRow).sheet with
    | some snm =>
      match parseByName wb snm with
      | .error e => .error e
      | .ok grid =>
        match buildTable grid (marketplace_configs marketplace headerRow dataRow).headerRow
            (marketplace_configs marketplace headerRow dataRow).dataRow with
        | .error e => .error e
        | .ok t => .ok (if marketplace = "Amazon" then dropParentRows t else t)
    | none =>
      match (marketplace_configs marketplace headerRow dataRow).sheetIndex with
      | none => .error "sheet_index is not set"
      | some i =>
        match parseByIndex wb i with
        | .error e => .error e
        | .ok grid =>
          buildTable grid (marketplace_configs marketplace headerRow dataRow).headerRow
            (marketplace_configs marketplace headerRow dataRow).dataRow

/-- Embeds `read_input_to_df` (src/app.py lines 194-245). -/
def read_input_to_df (wb : XlBook) (marketplace : String) (headerRow dataRow : Int)
    (sheetName : Option String) : Except String Table :=
  match read_input_core wb marketplace headerRow dataRow sheetName with
  | .error e => .error e
  | .ok t => .ok (dropEmptyCols t)

/-- Error test on a fallible result. -/
def isErr {α : Type} (e : Except String α) : Bool :=
  match e with
  | .error _ => true
  | .ok _ => false

theorem isErr_read_input (wb : XlBook) (m : String) (hr dr : Int) (sn : Option String) :
    isErr (read_input_to_df wb m hr dr sn) = isErr (read_input_core wb m hr dr sn) := by
  unfold read_input_to_df
  cases read_input_core wb m hr dr sn <;> rfl

theorem read_input_core_amazon (wb : XlBook) (hr dr : Int) :
    read_input_core wb "Amazon" hr dr none =
      match parseByName wb "Template" with
      | .error e => .error e
      | .ok grid =>
        match buildTable grid 4 7 with
        | .error e => .error e
        | .ok t => .ok (dropParentRows t) := rfl

theorem read_input_core_flipkart (wb : XlBook) (hr dr : Int) :
    read_input_core wb "Flipkart" hr dr none =
      match parseByIndex wb 2 with
      | .error e => .error e
      | .ok grid => buildTable grid 1 5 := rfl

theorem read_input_core_general (wb : XlBook) (hr dr : Int) (nm : String)
    (h : (nm == "") = false) :
    read_input_core wb "General" hr dr (some nm) =
      match parseByName wb nm with
      | .error e => .error e
      | .ok grid => buildTable grid hr dr := by
  unfold read_input_core
  have hcond : (("General" == "General") && sheetNameTruthy (some nm)) = true := by
    simp [sheetNameTruthy, h]
  rw [if_pos hcond]
  rfl

theorem ilocRow_oob (grid : List (List (Option String))) (i : Int)
    (h0 : 0 ≤ i) (hlen : (grid.length : Int) ≤ i) :
    ilocRow grid i = .error "single positional indexer is out-of-bounds" := by
  have hidx : ilocIdx grid.length i = i := by
    unfold ilocIdx
    rw [if_neg (by omega)]
  unfold ilocRow
  rw [hidx, if_neg (by omega)]
  rw [List.get?_eq_none.mpr (by omega)]

theorem buildTable_short (grid : List (List (Option String))) (headerRow dataRow : Int)
    (h1 : 1 ≤ headerRow) (h2 : (grid.length : Int) < headerRow) :
    isErr (buildTable grid headerRow dataRow) = true := by
  unfold buildTable
  rw [ilocRow_oob _ _ (by omega) (by omega)]
  rfl

theorem parseByName_missing (wb : XlBook) (nm : String)
    (h : wb.sheets.find? (fun p => p.1 == nm) = none) :
    parseByName wb nm = .error ("Worksheet named " ++ nm ++ " not found") := by
  unfold parseByName
  rw [h]

/-- C8: extraction fails with a descriptive error — rather than silently
returning an empty table — when the requested sheet name does not exist
(General mode and Amazon's fixed `Template` sheet), when the fixed sheet
index is beyond the workbook (Flipkart reads sheet index 2), or when the
grid has fewer rows than the 1-indexed header row.  The spec's
`InputFormatError` is embedded as the `Except` error outcome of
`read_input_to_df`. -/
theorem C8_input_errors :
    (∀ (wb : XlBook) (nm : String) (hr dr : Int), (nm == "") = false →
      wb.sheets.find? (fun p => p.1 == nm) = none →
      isErr (read_input_to_df wb "General" hr dr (some nm)) = true) ∧
    (∀ (wb : XlBook) (nm : String) (grid : List (List (Option String))) (hr dr : Int),
      (nm == "") = false → parseByName wb nm = .ok grid → 1 ≤ hr →
      (grid.length : Int) < hr →
      isErr (read_input_to_df wb "General" hr dr (some nm)) = true) ∧
    (∀ (wb : XlBook) (hr dr : Int),
      wb.sheets.find? (fun p => p.1 == "Template") = none →
      isErr (read_input_to_df wb "Amazon" hr dr none) = true) ∧
    (∀ (wb : XlBook) (hr dr : Int), wb.sheets.length ≤ 2 →
      isErr (read_input_to_df wb "Flipkart" hr dr none) = true) := by
  refine ⟨?_, ?_, ?_, ?_⟩
  · intro wb nm hr dr hnm hfind
    rw [isErr_read_input, read_input_core_general wb hr dr nm hnm,
      parseByName_missing wb nm hfind]
    rfl
  · intro wb nm grid hr dr hnm hok h1 h2
    rw [isErr_read_input, read_input_core_general wb hr dr nm hnm, hok]
    exact buildTable_short grid hr dr h1 h2
  · intro wb hr dr hfind
    rw [isErr_read_input, read_input_core_amazon wb hr dr,
      parseByName_missing wb "Template" hfind]
    rfl
  · intro wb hr dr hlen
    rw [isErr_read_input, read_input_core_flipkart wb hr dr]
    have : parseByIndex wb 2 = .error "list index out of range" := by
      unfold parseByIndex
      rw [List.get?_eq_none.mpr (by omega)]
    rw [this]
    rfl

/-- C8 witness: a workbook with a single sheet named `Sheet1` holding a
2-row grid — requesting the missing sheet `Data`, a header row beyond the
grid, the missing Amazon `Template` sheet, and the missing Flipkart sheet
index all fail. -/
theorem C8_input_errors_witness :
    isErr (read_input_to_df ⟨[("Sheet1", [[some "A"], [some "1"]])]⟩
      "General" 1 2 (some "Data")) = true ∧
    isErr (read_input_to_df ⟨[("Sheet1", [[some "A"], [some "1"]])]⟩
      "General" 3 4 (some "Sheet1")) = true ∧
    isErr (read_input_to_df ⟨[("Sheet1", [[some "A"], [some "1"]])]⟩
      "Amazon" 1 2 none) = true ∧
    isErr (read_input_to_df ⟨[("Sheet1", [[some "A"], [some "1"]])]⟩
      "Flipkart" 1 2 none) = true := by
  refine ⟨?_, ?_, ?_, ?_⟩
  · exact C8_input_errors.1 ⟨[("Sheet1", [[some "A"], [some "1"]])]⟩ "Data" 1 2
      (by decide) (by decide)
  · exact C8_input_errors.2.1 ⟨[("Sheet1", [[some "A"], [some "1"]])]⟩ "Sheet1"
      [[some "A"], [some "1"]] 3 4 (by decide) rfl (by decide) (by decide)
  · exact C8_input_errors.2.2.1 ⟨[("Sheet1", [[some "A"], [some "1"]])]⟩ 1 2 (by decide)
  · exact C8_input_errors.2.2.2 ⟨[("Sheet1", [[some "A"], [some "1"]])]⟩ 1 2 (by decide)

theorem lookupSheet_updateSheet_ne : ∀ (wb : List (String × Sheet)) (n m : String)
    (s : Sheet), m ≠ n → lookupSheet (updateSheet wb n s) m = lookupSheet wb m := by
  intro wb
  induction wb with
  | nil => intro n m s h; rfl
  | cons p rest ih =>
    obtain ⟨pn, ps⟩ := p
    intro n m s h
    unfold updateSheet
    by_cases hpn : pn = n
    · rw [if_pos hpn]
      unfold lookupSheet
      rw [List.find?_cons_of_neg _ (by simp only [beq_iff_eq]; exact fun hh => h (hh ▸ hpn)),
        List.find?_cons_of_neg _ (by simp only [beq_iff_eq]; exact fun hh => h (hh ▸ hpn))]
    · rw [if_neg hpn]
      by_cases hpm : pn = m
      · unfold lookupSheet
        rw [List.find?_cons_of_pos _ (by simp [hpm]), List.find?_cons_of_pos _ (by simp [hpm])]
      · unfold lookupSheet
        rw [List.find?_cons_of_neg _ (by simp [hpm]), List.find?_cons_of_neg _ (by simp [hpm])]
        exact ih n m s h

theorem lookupSheet_updateSheet_same : ∀ (wb : List (String × Sheet)) (n : String)
    (s : Sheet), (lookupSheet wb n).isSome = true →
    lookupSheet (updateSheet wb n s) n = some s := by
  intro wb
  induction wb with
  | nil => intro n s h; cases h
  | cons p rest ih =>
    obtain ⟨pn, ps⟩ := p
    intro n s h
    unfold updateSheet
    by_cases hpn : pn = n
    · rw [if_pos hpn]
      unfold lookupSheet
      rw [List.find?_cons_of_pos _ (by simp [hpn])]
      rfl
    · rw [if_neg hpn]
      unfold lookupSheet
      rw [List.find?_cons_of_neg _ (by simp [hpn])]
      refine ih n s ?_
      unfold lookupSheet at h
      rw [List.find?_cons_of_neg _ (by simp [hpn])] at h
      exact h

theorem process_write_eq (template : List (String × Sheet)) (t : Table)
    (marketplace : String) (selVariant selProduct : Option String) (batchId : Nat)
    (wsV0 wsT0 : Sheet)
    (hV : lookupSheet template "Values" = some wsV0)
    (hT : lookupSheet template "Types" = some wsT0) :
    process_write template t marketplace selVariant selProduct batchId =
      .ok (updateSheet (updateSheet template "Values"
        (process_write_core wsV0 wsT0 t marketplace selVariant selProduct batchId).1)
        "Types" (process_write_core wsV0 wsT0 t marketplace selVariant selProduct batchId).2) := by
  unfold process_write
  rw [hV, hT]

/-- C9: the write phase modifies only the `Values` and `Types` sheets of the
template workbook — every other sheet is exactly the template's — and it is
a pure function returning a new workbook value (the source serializes into a
fresh in-memory buffer and never writes the template path on disk). -/
theorem C9_frame_effect (template : List (String × Sheet)) (t : Table)
    (marketplace : String) (selVariant selProduct : Option String) (batchId : Nat)
    (wsV0 wsT0 : Sheet)
    (hV : lookupSheet template "Values" = some wsV0)
    (hT : lookupSheet template "Types" = some wsT0)
    (n : String) (hn1 : n ≠ "Values") (hn2 : n ≠ "Types") :
    outSheet (process_write template t marketplace selVariant selProduct batchId) n =
      lookupSheet template n := by
  rw [process_write_eq template t marketplace selVariant selProduct batchId wsV0 wsT0 hV hT]
  show lookupSheet (updateSheet (updateSheet template "Values"
    (process_write_core wsV0 wsT0 t marketplace selVariant selProduct batchId).1)
    "Types" (process_write_core wsV0 wsT0 t marketplace selVariant selProduct batchId).2) n =
    lookupSheet template n
  rw [lookupSheet_updateSheet_ne _ _ _ _ hn2, lookupSheet_updateSheet_ne _ _ _ _ hn1]

/-- C9 witness: on a template with an extra sheet `Boilerplate`, that sheet
is returned untouched by the writer. -/
theorem C9_frame_effect_witness :
    outSheet (process_write
      [("Boilerplate", fullRowSheet), ("Values", emptySheet), ("Types", emptySheet)]
      ⟨[("SKU", [some "A"])], 1⟩ "General" none none 1) "Boilerplate" =
      some fullRowSheet := by
  rw [C9_frame_effect
    [("Boilerplate", fullRowSheet), ("Values", emptySheet), ("Types", emptySheet)]
    ⟨[("SKU", [some "A"])], 1⟩ "General" none none 1 emptySheet emptySheet
    rfl rfl "Boilerplate" (by decide) (by decide)]
  rfl

theorem writeOptionsValues_show (wsV : Sheet) (o1c o2c : Nat) (o1 o2 : List String) :
    writeOptionsValues wsV o1c o2c o1 o2 =
      writeColVals (writeColVals ((wsV.set 1 o1c (some "Option 1")).set 1 o2c
        (some "Option 2")) 2 o1c (o1.map strOrNone)) 2 o2c (o2.map strOrNone) := rfl

theorem writeOptionsValues_get_hdr1 (wsV : Sheet) (o1c o2c : Nat) (o1 o2 : List String)
    (h : o2c ≠ o1c) :
    (writeOptionsValues wsV o1c o2c o1 o2).get 1 o1c = some "Option 1" := by
  rw [writeOptionsValues_show]
  rw [writeColVals_get_ne_col _ _ _ _ _ _ (fun hh => h hh.symm)]
  rw [writeColVals_get_row_lt _ _ _ _ _ _ (by omega)]
  rw [Sheet.get_set_ne _ _ _ _ _ _ (fun hh => h hh.2.symm)]
  exact Sheet.get_set_same _ _ _ _

theorem writeOptionsValues_get_hdr2 (wsV : Sheet) (o1c o2c : Nat) (o1 o2 : List String)
    (h : o2c ≠ o1c) :
    (writeOptionsValues wsV o1c o2c o1 o2).get 1 o2c = some "Option 2" := by
  rw [writeOptionsValues_show]
  rw [writeColVals_get_row_lt _ _ _ _ _ _ (by omega)]
  rw [writeColVals_get_ne_col _ _ _ _ _ _ h]
  exact Sheet.get_set_same _ _ _ _

theorem writeOptionsValues_get_val1 (wsV : Sheet) (o1c o2c : Nat) (o1 o2 : List String)
    (h : o2c ≠ o1c) (i : Nat) (v : Option String)
    (hv : (o1.map strOrNone).get? i = some v) :
    (writeOptionsValues wsV o1c o2c o1 o2).get (2 + i) o1c = v := by
  rw [writeOptionsValues_show]
  rw [writeColVals_get_ne_col _ _ _ _ _ _ (fun hh => h hh.symm)]
  exact writeColVals_get_at _ _ _ _ _ _ hv

theorem writeOptionsValues_get_val2 (wsV : Sheet) (o1c o2c : Nat) (o1 o2 : List String)
    (i : Nat) (v : Option String) (hv : (o2.map strOrNone).get? i = some v) :
    (writeOptionsValues wsV o1c o2c o1 o2).get (2 + i) o2c = v := by
  rw [writeOptionsValues_show]
  exact writeColVals_get_at _ _ _ _ _ _ hv

theorem writeOptionsValues_maxColumn (wsV : Sheet) (o1c o2c : Nat) (o1 o2 : List String) :
    o2c ≤ (writeOptionsValues wsV o1c o2c o1 o2).maxColumn := by
  rw [writeOptionsValues_show]
  calc o2c ≤ ((wsV.set 1 o1c (some "Option 1")).set 1 o2c (some "Option 2")).maxColumn := by
        rw [Sheet.maxColumn_set]; exact le_max_right _ _
  _ ≤ _ := le_trans (writeColVals_maxColumn _ _ _ _) (writeColVals_maxColumn _ _ _ _)

theorem writeOptionsTypes_show (wsT : Sheet) (o1c o2c : Nat) (u1 u2 : List String) :
    writeOptionsTypes wsT o1c o2c u1 u2 =
      writeColVals (writeColVals ((((((((wsT.set 1 o1c (some "Option 1")).set 2 o1c
        (some "Option 1")).set 3 o1c (some "non mandatory")).set 4 o1c
        (some "select")).set 1 o2c (some "Option 2")).set 2 o2c
        (some "Option 2")).set 3 o2c (some "non mandatory")).set 4 o2c
        (some "select")) 5 o1c (u1.map some)) 5 o2c (u2.map some) := rfl

theorem writeOptionsTypes_get_cells (wsT : Sheet) (o1c o2c : Nat) (u1 u2 : List String)
    (h : o2c ≠ o1c) :
    (writeOptionsTypes wsT o1c o2c u1 u2).get 1 o1c = some "Option 1" ∧
    (writeOptionsTypes wsT o1c o2c u1 u2).get 1 o2c = some "Option 2" ∧
    (writeOptionsTypes wsT o1c o2c u1 u2).get 3 o1c = some "non mandatory" ∧
    (writeOptionsTypes wsT o1c o2c u1 u2).get 4 o1c = some "select" ∧
    (writeOptionsTypes wsT o1c o2c u1 u2).get 3 o2c = some "non mandatory" ∧
    (writeOptionsTypes wsT o1c o2c u1 u2).get 4 o2c = some "select" := by
  rw [writeOptionsTypes_show]
  have hco : o1c ≠ o2c := fun hh => h hh.symm
  refine ⟨?_, ?_, ?_, ?_, ?_, ?_⟩
  · rw [writeColVals_get_ne_col _ _ _ _ _ _ hco,
      writeColVals_get_row_lt _ _ _ _ _ _ (by omega),
      Sheet.get_set_ne _ _ _ _ _ _ (fun hh => by omega),
      Sheet.get_set_ne _ _ _ _ _ _ (fun hh => hco hh.2),
      Sheet.get_set_ne _ _ _ _ _ _ (fun hh => hco hh.2),
      Sheet.get_set_ne _ _ _ _ _ _ (fun hh => hco hh.2),
      Sheet.get_set_ne _ _ _ _ _ _ (fun hh => by omega),
      Sheet.get_set_ne _ _ _ _ _ _ (fun hh => by omega)]
    exact Sheet.get_set_same _ _ _ _
  · rw [writeColVals_get_row_lt _ _ _ _ _ _ (by omega),
      writeColVals_get_row_lt _ _ _ _ _ _ (by omega),
      Sheet.get_set_ne _ _ _ _ _ _ (fun hh => by omega),
      Sheet.get_set_ne _ _ _ _ _ _ (fun hh => by omega),
      Sheet.get_set_ne _ _ _ _ _ _ (fun hh => by omega)]
    exact Sheet.get_set_same _ _ _ _
  · rw [writeColVals_get_ne_col _ _ _ _ _ _ hco,
      writeColVals_get_row_lt _ _ _ _ _ _ (by omega),
      Sheet.get_set_ne _ _ _ _ _ _ (fun hh => by omega),
      Sheet.get_set_ne _ _ _ _ _ _ (fun hh => hco hh.2),
      Sheet.get_set_ne _ _ _ _ _ _ (fun hh => by omega),
      Sheet.get_set_ne _ _ _ _ _ _ (fun hh => hco hh.2),
      Sheet.get_set_ne _ _ _ _ _ _ (fun hh => by omega)]
    exact Sheet.get_set_same _ _ _ _
  · rw [writeColVals_get_ne_col _ _ _ _ _ _ hco,
      writeColVals_get_row_lt _ _ _ _ _ _ (by omega),
      Sheet.get_set_ne _ _ _ _ _ _ (fun hh => hco hh.2),
      Sheet.get_set_ne _ _ _ _ _ _ (fun hh => by omega),
      Sheet.get_set_ne _ _ _ _ _ _ (fun hh => hco hh.2),
      Sheet.get_set_ne _ _ _ _ _ _ (fun hh => by omega)]
    exact Sheet.get_set_same _ _ _ _
  · rw [writeColVals_get_row_lt _ _ _ _ _ _ (by omega),
      writeColVals_get_row_lt _ _ _ _ _ _ (by omega),
      Sheet.get_set_ne _ _ _ _ _ _ (fun hh => by omega)]
    exact Sheet.get_set_same _ _ _ _
  · rw [writeColVals_get_row_lt _ _ _ _ _ _ (by omega),
      writeColVals_get_row_lt _ _ _ _ _ _ (by omega)]
    exact Sheet.get_set_same _ _ _ _

theorem writeOptionsTypes_maxColumn (wsT : Sheet) (o1c o2c : Nat) (u1 u2 : List String) :
    o2c ≤ (writeOptionsTypes wsT o1c o2c u1 u2).maxColumn := by
  rw [writeOptionsTypes_show]
  refine le_trans ?_ (le_trans (writeColVals_maxColumn _ _ _ _) (writeColVals_maxColumn _ _ _ _))
  rw [Sheet.maxColumn_set]
  exact le_max_right _ _

theorem writeIdCol_show (wsV wsT : Sheet) (vcol tcol : Nat) (label : String)
    (vals : List String) :
    writeIdCol wsV wsT vcol tcol label vals =
      (writeColVals (wsV.set 1 vcol (some label)) 2 vcol (vals.map strOrNone),
       (((wsT.set 1 tcol (some label)).set 2 tcol (some label)).set 3 tcol
         (some "mandatory")).set 4 tcol (some "string")) := rfl

theorem writeIdCol_get_snd_ne (wsV wsT : Sheet) (vcol tcol : Nat) (label : String)
    (vals : List String) (r c : Nat) (h : c ≠ tcol) :
    (writeIdCol wsV wsT vcol tcol label vals).2.get r c = wsT.get r c := by
  rw [writeIdCol_show]
  show ((((wsT.set 1 tcol (some label)).set 2 tcol (some label)).set 3 tcol
    (some "mandatory")).set 4 tcol (some "string")).get r c = wsT.get r c
  rw [Sheet.get_set_ne _ _ _ _ _ _ (fun hh => h hh.2),
    Sheet.get_set_ne _ _ _ _ _ _ (fun hh => h hh.2),
    Sheet.get_set_ne _ _ _ _ _ _ (fun hh => h hh.2),
    Sheet.get_set_ne _ _ _ _ _ _ (fun hh => h hh.2)]

theorem writeIdCol_maxColumn_fst (wsV wsT : Sheet) (vcol tcol : Nat) (label : String)
    (vals : List String) :
    wsV.maxColumn ≤ (writeIdCol wsV wsT vcol tcol label vals).1.maxColumn := by
  rw [writeIdCol_show]
  refine le_trans ?_ (writeColVals_maxColumn _ _ _ _)
  rw [Sheet.maxColumn_set]
  exact le_max_left _ _

theorem writeIdCol_maxColumn_snd (wsV wsT : Sheet) (vcol tcol : Nat) (label : String)
    (vals : List String) :
    wsT.maxColumn ≤ (writeIdCol wsV wsT vcol tcol label vals).2.maxColumn := by
  rw [writeIdCol_show]
  show wsT.maxColumn ≤ ((((wsT.set 1 tcol (some label)).set 2 tcol (some label)).set 3 tcol
    (some "mandatory")).set 4 tcol (some "string")).maxColumn
  simp only [Sheet.maxColumn_set]
  exact le_trans (le_max_left _ _) (le_trans (le_max_left _ _)
    (le_trans (le_max_left _ _) (le_max_left _ _)))

theorem append_id_columns_get_fst_lt (wsV wsT : Sheet) (afterV afterT : Nat)
    (variant product : Option (List String)) (r c : Nat) (h : c < afterV) :
    (append_id_columns wsV wsT afterV afterT variant product).1.get r c = wsV.get r c := by
  unfold append_id_columns
  cases hv : (variant.map seriesHasValue).getD false <;>
    cases hp : (product.map seriesHasValue).getD false
  · rw [if_neg (by simp)]
  · rw [if_pos (by simp), if_neg Bool.false_ne_true, if_pos rfl]
    rw [writeIdCol_get_fst_ne _ _ _ _ _ _ _ _ (by rw [if_neg Bool.false_ne_true]; omega)]
  · rw [if_pos (by simp), if_pos rfl, if_neg Bool.false_ne_true]
    rw [writeIdCol_get_fst_ne _ _ _ _ _ _ _ _ (by omega)]
  · rw [if_pos (by simp), if_pos rfl, if_pos rfl]
    rw [writeIdCol_get_fst_ne _ _ _ _ _ _ _ _ (by rw [if_pos rfl]; omega),
      writeIdCol_get_fst_ne _ _ _ _ _ _ _ _ (by omega)]

theorem append_id_columns_get_snd_lt (wsV wsT : Sheet) (afterV afterT : Nat)
    (variant product : Option (List String)) (r c : Nat) (h : c < afterT) :
    (append_id_columns wsV wsT afterV afterT variant product).2.get r c = wsT.get r c := by
  unfold append_id_columns
  cases hv : (variant.map seriesHasValue).getD false <;>
    cases hp : (product.map seriesHasValue).getD false
  · rw [if_neg (by simp)]
  · rw [if_pos (by simp), if_neg Bool.false_ne_true, if_pos rfl]
    rw [writeIdCol_get_snd_ne _ _ _ _ _ _ _ _ (by rw [if_neg Bool.false_ne_true]; omega)]
  · rw [if_pos (by simp), if_pos rfl, if_neg Bool.false_ne_true]
    rw [writeIdCol_get_snd_ne _ _ _ _ _ _ _ _ (by omega)]
  · rw [if_pos (by simp), if_pos rfl, if_pos rfl]
    rw [writeIdCol_get_snd_ne _ _ _ _ _ _ _ _ (by rw [if_pos rfl]; omega),
      writeIdCol_get_snd_ne _ _ _ _ _ _ _ _ (by omega)]

theorem append_id_columns_maxColumn_fst (wsV wsT : Sheet) (afterV afterT : Nat)
    (variant product : Option (List String)) :
    wsV.maxColumn ≤ (append_id_columns wsV wsT afterV afterT variant product).1.maxColumn := by
  unfold append_id_columns
  cases hv : (variant.map seriesHasValue).getD false <;>
    cases hp : (product.map seriesHasValue).getD false
  · rw [if_neg (by simp)]
  · rw [if_pos (by simp), if_neg Bool.false_ne_true, if_pos rfl]
    exact writeIdCol_maxColumn_fst _ _ _ _ _ _
  · rw [if_pos (by simp), if_pos rfl, if_neg Bool.false_ne_true]
    exact writeIdCol_maxColumn_fst _ _ _ _ _ _
  · rw [if_pos (by simp), if_pos rfl, if_pos rfl]
    exact le_trans (writeIdCol_maxColumn_fst _ _ _ _ _ _) (writeIdCol_maxColumn_fst _ _ _ _ _ _)

theorem append_id_columns_maxColumn_snd (wsV wsT : Sheet) (afterV afterT : Nat)
    (variant product : Option (List String)) :
    wsT.maxColumn ≤ (append_id_columns wsV wsT afterV afterT variant product).2.maxColumn := by
  unfold append_id_columns
  cases hv : (variant.map seriesHasValue).getD false <;>
    cases hp : (product.map seriesHasValue).getD false
  · rw [if_neg (by simp)]
  · rw [if_pos (by simp), if_neg Bool.false_ne_true, if_pos rfl]
    exact writeIdCol_maxColumn_snd _ _ _ _ _ _
  · rw [if_pos (by simp), if_pos rfl, if_neg Bool.false_ne_true]
    exact writeIdCol_maxColumn_snd _ _ _ _ _ _
  · rw [if_pos (by simp), if_pos rfl, if_pos rfl]
    exact le_trans (writeIdCol_maxColumn_snd _ _ _ _ _ _) (writeIdCol_maxColumn_snd _ _ _ _ _ _)

theorem writeBatchBlock_get_fst_ne (wsV wsT : Sheet) (numRows : Nat) (b : String)
    (r c : Nat) (h : c ≠ first_empty_col wsV [1]) :
    (writeBatchBlock wsV wsT numRows b).1.get r c = wsV.get r c := by
  show (writeColVals (wsV.set 1 (first_empty_col wsV [1]) (some "BatchID")) 2
    (first_empty_col wsV [1]) (List.replicate numRows (some b))).get r c = wsV.get r c
  rw [writeColVals_get_ne_col _ _ _ _ _ _ h]
  exact Sheet.get_set_ne _ _ _ _ _ _ (fun hh => h hh.2)

theorem writeBatchBlock_get_snd_ne (wsV wsT : Sheet) (numRows : Nat) (b : String)
    (r c : Nat) (h : c ≠ first_empty_col wsT [1, 2, 3, 4]) :
    (writeBatchBlock wsV wsT numRows b).2.get r c = wsT.get r c := by
  show ((((wsT.set 1 (first_empty_col wsT [1, 2, 3, 4]) (some "BatchID")).set 2
    (first_empty_col wsT [1, 2, 3, 4]) (some "BatchID")).set 3
    (first_empty_col wsT [1, 2, 3, 4]) (some "non mandatory")).set 4
    (first_empty_col wsT [1, 2, 3, 4]) (some "string")).get r c = wsT.get r c
  rw [Sheet.get_set_ne _ _ _ _ _ _ (fun hh => h hh.2),
    Sheet.get_set_ne _ _ _ _ _ _ (fun hh => h hh.2),
    Sheet.get_set_ne _ _ _ _ _ _ (fun hh => h hh.2),
    Sheet.get_set_ne _ _ _ _ _ _ (fun hh => h hh.2)]

theorem get?_replicate_lt {α : Type} (a : α) : ∀ (n i : Nat), i < n →
    (List.replicate n a).get? i = some a := by
  intro n
  induction n with
  | zero => intro i h; omega
  | succ n ih =>
    intro i h
    cases i with
    | zero => rfl
    | succ j => exact ih j (by omega)

theorem idSheets_fst_get_opt (wsV0 wsT0 : Sheet) (t : Table) (mk : String)
    (sv sp : Option String) :
    (idSheets wsV0 wsT0 t mk sv sp).1.get 1 (optStartV wsV0 t) = some "Option 1" ∧
    (idSheets wsV0 wsT0 t mk sv sp).1.get 1 (optStartV wsV0 t + 1) = some "Option 2" := by
  unfold idSheets optionSheets
  constructor
  · rw [append_id_columns_get_fst_lt _ _ _ _ _ _ _ _ (by omega)]
    exact writeOptionsValues_get_hdr1 _ _ _ _ _ (by omega)
  · rw [append_id_columns_get_fst_lt _ _ _ _ _ _ _ _ (by omega)]
    exact writeOptionsValues_get_hdr2 _ _ _ _ _ (by omega)

theorem idSheets_snd_get_opt (wsV0 wsT0 : Sheet) (t : Table) (mk : String)
    (sv sp : Option String) :
    (idSheets wsV0 wsT0 t mk sv sp).2.get 1 (optStartT wsT0 t) = some "Option 1" ∧
    (idSheets wsV0 wsT0 t mk sv sp).2.get 1 (optStartT wsT0 t + 1) = some "Option 2" ∧
    (idSheets wsV0 wsT0 t mk sv sp).2.get 3 (optStartT wsT0 t) = some "non mandatory" ∧
    (idSheets wsV0 wsT0 t mk sv sp).2.get 4 (optStartT wsT0 t) = some "select" ∧
    (idSheets wsV0 wsT0 t mk sv sp).2.get 3 (optStartT wsT0 t + 1) = some "non mandatory" ∧
    (idSheets wsV0 wsT0 t mk sv sp).2.get 4 (optStartT wsT0 t + 1) = some "select" := by
  unfold idSheets optionSheets
  have hcells := writeOptionsTypes_get_cells (metaSheets wsV0 wsT0 t).2 (optStartT wsT0 t)
    (optStartT wsT0 t + 1) (unique_opt1 t) (unique_opt2 t) (by omega)
  refine ⟨?_, ?_, ?_, ?_, ?_, ?_⟩ <;>
    rw [append_id_columns_get_snd_lt _ _ _ _ _ _ _ _ (by omega)]
  exacts [hcells.1, hcells.2.1, hcells.2.2.1, hcells.2.2.2.1,
    hcells.2.2.2.2.1, hcells.2.2.2.2.2]

theorem idSheets_maxColumn_fst (wsV0 wsT0 : Sheet) (t : Table) (mk : String)
    (sv sp : Option String) :
    optStartV wsV0 t + 1 ≤ (idSheets wsV0 wsT0 t mk sv sp).1.maxColumn := by
  unfold idSheets optionSheets
  exact le_trans (writeOptionsValues_maxColumn _ _ _ _ _)
    (append_id_columns_maxColumn_fst _ _ _ _ _ _)

theorem idSheets_maxColumn_snd (wsV0 wsT0 : Sheet) (t : Table) (mk : String)
    (sv sp : Option String) :
    optStartT wsT0 t + 1 ≤ (idSheets wsV0 wsT0 t mk sv sp).2.maxColumn := by
  unfold idSheets optionSheets
  exact le_trans (writeOptionsTypes_maxColumn _ _ _ _ _)
    (append_id_columns_maxColumn_snd _ _ _ _ _ _)

theorem batch_avoids_optV (wsV0 wsT0 : Sheet) (t : Table) (mk : String)
    (sv sp : Option String) :
    first_empty_col (idSheets wsV0 wsT0 t mk sv sp).1 [1] ≠ optStartV wsV0 t ∧
    first_empty_col (idSheets wsV0 wsT0 t mk sv sp).1 [1] ≠ optStartV wsV0 t + 1 := by
  have hI := idSheets_fst_get_opt wsV0 wsT0 t mk sv sp
  have hm := idSheets_maxColumn_fst wsV0 wsT0 t mk sv sp
  constructor
  · exact first_empty_col_ne_of_nonblank _ [1] _ 1 (by simp) (by rw [hI.1]; rfl) (by omega)
  · exact first_empty_col_ne_of_nonblank _ [1] _ 1 (by simp) (by rw [hI.2]; rfl) (by omega)

theorem batch_avoids_optT (wsV0 wsT0 : Sheet) (t : Table) (mk : String)
    (sv sp : Option String) :
    first_empty_col (idSheets wsV0 wsT0 t mk sv sp).2 [1, 2, 3, 4] ≠ optStartT wsT0 t ∧
    first_empty_col (idSheets wsV0 wsT0 t mk sv sp).2 [1, 2, 3, 4] ≠ optStartT wsT0 t + 1 := by
  have hI := idSheets_snd_get_opt wsV0 wsT0 t mk sv sp
  have hm := idSheets_maxColumn_snd wsV0 wsT0 t mk sv sp
  constructor
  · exact first_empty_col_ne_of_nonblank _ [1, 2, 3, 4] _ 1 (by simp) (by rw [hI.1]; rfl)
      (by omega)
  · exact first_empty_col_ne_of_nonblank _ [1, 2, 3, 4] _ 1 (by simp) (by rw [hI.2.1]; rfl)
      (by omega)

theorem process_write_core_cells (wsV0 wsT0 : Sheet) (t : Table) (mk : String)
    (sv sp : Option String) (b : Nat) :
    (process_write_core wsV0 wsT0 t mk sv sp b).1.get 1 (optStartV wsV0 t) =
      some "Option 1" ∧
    (process_write_core wsV0 wsT0 t mk sv sp b).1.get 1 (optStartV wsV0 t + 1) =
      some "Option 2" ∧
    (process_write_core wsV0 wsT0 t mk sv sp b).2.get 3 (optStartT wsT0 t) =
      some "non mandatory" ∧
    (process_write_core wsV0 wsT0 t mk sv sp b).2.get 4 (optStartT wsT0 t) =
      some "select" ∧
    (process_write_core wsV0 wsT0 t mk sv sp b).2.get 3 (optStartT wsT0 t + 1) =
      some "non mandatory" ∧
    (process_write_core wsV0 wsT0 t mk sv sp b).2.get 4 (optStartT wsT0 t + 1) =
      some "select" := by
  unfold process_write_core
  have hIV := idSheets_fst_get_opt wsV0 wsT0 t mk sv sp
  have hIT := idSheets_snd_get_opt wsV0 wsT0 t mk sv sp
  have hbv := batch_avoids_optV wsV0 wsT0 t mk sv sp
  have hbt := batch_avoids_optT wsV0 wsT0 t mk sv sp
  refine ⟨?_, ?_, ?_, ?_, ?_, ?_⟩
  · rw [writeBatchBlock_get_fst_ne _ _ _ _ _ _ (Ne.symm hbv.1)]
    exact hIV.1
  · rw [writeBatchBlock_get_fst_ne _ _ _ _ _ _ (Ne.symm hbv.2)]
    exact hIV.2
  · rw [writeBatchBlock_get_snd_ne _ _ _ _ _ _ (Ne.symm hbt.1)]
    exact hIT.2.2.1
  · rw [writeBatchBlock_get_snd_ne _ _ _ _ _ _ (Ne.symm hbt.1)]
    exact hIT.2.2.2.1
  · rw [writeBatchBlock_get_snd_ne _ _ _ _ _ _ (Ne.symm hbt.2)]
    exact hIT.2.2.2.2.1
  · rw [writeBatchBlock_get_snd_ne _ _ _ _ _ _ (Ne.symm hbt.2)]
    exact hIT.2.2.2.2.2

theorem process_write_core_blankvals (wsV0 wsT0 : Sheet) (t : Table) (mk : String)
    (sv sp : Option String) (b : Nat)
    (hs : size_cols t = []) (hc : color_cols t = []) (i : Nat) (hi : i < t.nrows) :
    (process_write_core wsV0 wsT0 t mk sv sp b).1.get (2 + i) (optStartV wsV0 t) = none ∧
    (process_write_core wsV0 wsT0 t mk sv sp b).1.get (2 + i) (optStartV wsV0 t + 1) =
      none := by
  unfold process_write_core
  have hbv := batch_avoids_optV wsV0 wsT0 t mk sv sp
  constructor
  · rw [writeBatchBlock_get_fst_ne _ _ _ _ _ _ (Ne.symm hbv.1)]
    unfold idSheets optionSheets
    rw [append_id_columns_get_fst_lt _ _ _ _ _ _ _ _ (by omega)]
    refine writeOptionsValues_get_val1 _ _ _ _ _ (by omega) i none ?_
    rw [option1_data_nil hs, List.map_replicate]
    exact get?_replicate_lt _ _ _ hi
  · rw [writeBatchBlock_get_fst_ne _ _ _ _ _ _ (Ne.symm hbv.2)]
    unfold idSheets optionSheets
    rw [append_id_columns_get_fst_lt _ _ _ _ _ _ _ _ (by omega)]
    refine writeOptionsValues_get_val2 _ _ _ _ _ i none ?_
    rw [option2_data_nn hs hc, List.map_replicate]
    exact get?_replicate_lt _ _ _ hi

/-- C10: every run writes the `Option 1` and `Option 2` columns
unconditionally: on `Values`, row 1 gets the two headers at the columns
immediately after the classified block (`vals_start_col + len(columns_meta)`
and the next column, where `len(columns_meta)` equals the table's column
count); on `Types`, row 3 carries `"non mandatory"` and row 4 `"select"`
for both option columns; and when the table has no size-like and no
color-like column, every option value cell of the data rows is blank. -/
theorem C10_options_always_written (template : List (String × Sheet)) (t : Table)
    (marketplace : String) (selVariant selProduct : Option String) (batchId : Nat)
    (wsV0 wsT0 : Sheet)
    (hV : lookupSheet template "Values" = some wsV0)
    (hT : lookupSheet template "Types" = some wsT0) :
    outCell (process_write template t marketplace selVariant selProduct batchId) "Values"
      1 (optStartV wsV0 t) = some "Option 1" ∧
    outCell (process_write template t marketplace selVariant selProduct batchId) "Values"
      1 (optStartV wsV0 t + 1) = some "Option 2" ∧
    outCell (process_write template t marketplace selVariant selProduct batchId) "Types"
      3 (optStartT wsT0 t) = some "non mandatory" ∧
    outCell (process_write template t marketplace selVariant selProduct batchId) "Types"
      4 (optStartT wsT0 t) = some "select" ∧
    outCell (process_write template t marketplace selVariant selProduct batchId) "Types"
      3 (optStartT wsT0 t + 1) = some "non mandatory" ∧
    outCell (process_write template t marketplace selVariant selProduct batchId) "Types"
      4 (optStartT wsT0 t + 1) = some "select" ∧
    optStartV wsV0 t = first_empty_col wsV0 [1] + t.cols.length ∧
    (size_cols t = [] → color_cols t = [] → ∀ i, i < t.nrows →
      outCell (process_write template t marketplace selVariant selProduct batchId) "Values"
        (2 + i) (optStartV wsV0 t) = none ∧
      outCell (process_write template t marketplace selVariant selProduct batchId) "Values"
        (2 + i) (optStartV wsV0 t + 1) = none) := by
  have hpw := process_write_eq template t marketplace selVariant selProduct batchId
    wsV0 wsT0 hV hT
  have hVout : outSheet (process_write template t marketplace selVariant selProduct batchId)
      "Values" = some (process_write_core wsV0 wsT0 t marketplace selVariant selProduct
        batchId).1 := by
    rw [hpw]
    show lookupSheet (updateSheet (updateSheet template "Values"
      (process_write_core wsV0 wsT0 t marketplace selVariant selProduct batchId).1)
      "Types" (process_write_core wsV0 wsT0 t marketplace selVariant selProduct batchId).2)
      "Values" = _
    rw [lookupSheet_updateSheet_ne _ _ _ _ (by decide)]
    exact lookupSheet_updateSheet_same template "Values" _ (by rw [hV]; rfl)
  have hTout : outSheet (process_write template t marketplace selVariant selProduct batchId)
      "Types" = some (process_write_core wsV0 wsT0 t marketplace selVariant selProduct
        batchId).2 := by
    rw [hpw]
    show lookupSheet (updateSheet (updateSheet template "Values"
      (process_write_core wsV0 wsT0 t marketplace selVariant selProduct batchId).1)
      "Types" (process_write_core wsV0 wsT0 t marketplace selVariant selProduct batchId).2)
      "Types" = _
    refine lookupSheet_updateSheet_same _ "Types" _ ?_
    rw [lookupSheet_updateSheet_ne _ _ _ _ (by decide), hT]
    rfl
  have hcells := process_write_core_cells wsV0 wsT0 t marketplace selVariant selProduct batchId
  have houtV : ∀ r c, outCell (process_write template t marketplace selVariant selProduct
      batchId) "Values" r c = (process_write_core wsV0 wsT0 t marketplace selVariant
        selProduct batchId).1.get r c := by
    intro r c
    unfold outCell
    rw [hVout]
  have houtT : ∀ r c, outCell (process_write template t marketplace selVariant selProduct
      batchId) "Types" r c = (process_write_core wsV0 wsT0 t marketplace selVariant
        selProduct batchId).2.get r c := by
    intro r c
    unfold outCell
    rw [hTout]
  refine ⟨?_, ?_, ?_, ?_, ?_, ?_, ?_, ?_⟩
  · rw [houtV]; exact hcells.1
  · rw [houtV]; exact hcells.2.1
  · rw [houtT]; exact hcells.2.2.1
  · rw [houtT]; exact hcells.2.2.2.1
  · rw [houtT]; exact hcells.2.2.2.2.1
  · rw [houtT]; exact hcells.2.2.2.2.2
  · unfold optStartV columns_meta
    rw [List.length_map]
  · intro hs hc i hi
    have hblank := process_write_core_blankvals wsV0 wsT0 t marketplace selVariant
      selProduct batchId hs hc i hi
    exact ⟨by rw [houtV]; exact hblank.1, by rw [houtV]; exact hblank.2⟩

set_option maxRecDepth 40000 in
/-- C10 witness: on an empty template and a one-column table with no
size-like or color-like column, `Values` gets `Option 1` / `Option 2`
headers at columns 2 and 3, `Types` marks them `select`, and the option
value cell of the single data row is blank. -/
theorem C10_options_always_written_witness :
    outCell (process_write [("Values", emptySheet), ("Types", emptySheet)]
      ⟨[("SKU", [some "A"])], 1⟩ "General" none none 1) "Values" 1 2 = some "Option 1" ∧
    outCell (process_write [("Values", emptySheet), ("Types", emptySheet)]
      ⟨[("SKU", [some "A"])], 1⟩ "General" none none 1) "Values" 1 3 = some "Option 2" ∧
    outCell (process_write [("Values", emptySheet), ("Types", emptySheet)]
      ⟨[("SKU", [some "A"])], 1⟩ "General" none none 1) "Types" 4 2 = some "select" ∧
    outCell (process_write [("Values", emptySheet), ("Types", emptySheet)]
      ⟨[("SKU", [some "A"])], 1⟩ "General" none none 1) "Values" 2 2 = none := by
  have h := C10_options_always_written [("Values", emptySheet), ("Types", emptySheet)]
    ⟨[("SKU", [some "A"])], 1⟩ "General" none none 1 emptySheet emptySheet rfl rfl
  exact ⟨h.1, h.2.1, h.2.2.2.1,
    (h.2.2.2.2.2.2.2 (by decide) (by decide) 0 (by decide)).1⟩

/-- C3 witness: the classification theorem applied to the keyword case — a
column headed `Thumbnail` is tagged on header grounds alone. -/
theorem C3_image_classification_witness :
    is_image_column (norm "Thumbnail") [some "a.jpg", some "b.png", none] = true := by
  exact (C3_image_classification.1 (norm "Thumbnail") [some "a.jpg", some "b.png", none]).mpr
    (Or.inl ⟨"thumbnail", by decide, by decide⟩)

/-- C7 witness: the distinct-value theorem applied at the spec's example. -/
theorem C7_distinct_values_witness :
    "M" ∈ distinctNonBlank ["M", "L", "M", "S"] ∧
    distinctNonBlank ["M", "L", "M", "S"] = ["M", "L", "S"] := by
  exact ⟨((C7_distinct_values ["M", "L", "M", "S"]).2.2.1 "M").mpr ⟨by decide, by decide⟩,
    (C7_distinct_values ["M", "L", "M", "S"]).2.2.2.2⟩
